import Mathlib

/-!
Shallow embedding of the FASM emission core of the nextpnr-xilinx backend
(src/xilinx/fasm.cc), together with theorems settling the frozen claims about
its specification.

Conventions of the embedding:
- C++ `std::string` is modelled by `String`; the helpers `strContains`,
  `strStartsWith` and `replFirst` model `boost::contains`,
  `boost::starts_with` and `std::string::find`/`replace` (first occurrence).
- Machine integers are modelled by `Nat`/`Int` with explicit wrapping where
  the width matters (`toU64`); C++ `double` parameters that the spec calls
  "real-valued" are modelled exactly by `ℚ` (the concrete values of the
  claims, e.g. 5.25, are exactly representable as doubles, so the double and
  rational computations agree on them).
- `log_error` / `NPNR_ASSERT` terminate the program; fallible encoders are
  modelled with `Except String` / `Option`.
- Data that the emitter reads from the PNR database or the routed design
  (tile names, net bindings, `getHclkForIoi` comparisons, bound-wire tests)
  enters the model as explicit parameters, since the database itself is an
  external collaborator of the code under study.
-/

/-- Character-list containment test, modelling `boost::contains`. -/
def listContains (pat : List Char) : List Char → Bool
  | [] => pat.isEmpty
  | l@(_ :: t) => pat.isPrefixOf l || listContains pat t

/-- Substring test on strings, modelling `boost::contains(s, pat)`. -/
def strContains (s pat : String) : Bool := listContains pat.data s.data

/-- Test whether `s` starts with `pat`, modelling `boost::starts_with`. -/
def strStartsWith (s pat : String) : Bool := pat.data.isPrefixOf s.data

/-- Replace the first occurrence of `pat` (if any) in a character list by
`rep`, modelling `s.find(pat)` followed by `s.replace(pos, pat.size, rep)`. -/
def replFirst (pat rep : List Char) : List Char → List Char
  | [] => []
  | c :: t =>
    if pat.isPrefixOf (c :: t) then rep ++ (c :: t).drop pat.length
    else c :: replFirst pat rep t

/-- String version of `replFirst`. -/
def replFirstStr (s pat rep : String) : String := ⟨replFirst pat.data rep.data s.data⟩

/-- Decimal digit character, used to render widths the way `operator<<(int)` does. -/
def digitChar (n : Nat) : Char :=
  match n with
  | 0 => '0' | 1 => '1' | 2 => '2' | 3 => '3' | 4 => '4'
  | 5 => '5' | 6 => '6' | 7 => '7' | 8 => '8' | _ => '9'

/-- Fuelled decimal rendering of a natural number (most significant digit first). -/
def natDigitsAux : Nat → Nat → List Char
  | 0, _ => []
  | fuel + 1, n => if n < 10 then [digitChar n] else natDigitsAux fuel (n / 10) ++ [digitChar (n % 10)]

/-- Decimal rendering of a natural number, modelling `out << int(...)`. -/
def natDecimal (n : Nat) : String := ⟨natDigitsAux (n + 1) n⟩

/-- Dotted prefix produced by `write_prefix()`: every element of the prefix
stack followed by a `.`. -/
def joinPre : List String → String
  | [] => ""
  | x :: t => x ++ "." ++ joinPre t

/-- Rendering of one bit of a vector, `(bit ^ invert) ? '1' : '0'`. -/
def bitChar (b : Bool) : Char := if b then '1' else '0'

/-- The line emitted by `write_vector(name, value, invert)` under prefix stack
`pre` (without the trailing newline): the Verilog-style sized binary literal
with the bits printed most-significant (highest index) first. -/
def write_vector_line (pre : List String) (name : String) (value : List Bool) (invert : Bool) :
    String :=
  joinPre pre ++ name ++ " = " ++ natDecimal value.length ++ "'b" ++
    String.mk (value.reverse.map (fun b => bitChar (xor b invert)))

/-- Bit list built by `write_int_vector`: `bits[i] = (value & (1ULL << i)) != 0`. -/
def intVectorBits (value : Nat) (width : Nat) : List Bool :=
  (List.range width).map (fun i => value.testBit i)

/-- The line emitted by `write_int_vector(name, value, width, invert)`. -/
def write_int_vector_line (pre : List String) (name : String) (value : Nat) (width : Nat)
    (invert : Bool) : String :=
  write_vector_line pre name (intVectorBits value width) invert

/-- Conversion of a C++ `int` value to `uint64_t` at a call boundary
(reduction modulo 2^64). -/
def toU64 (z : Int) : Nat := (z % (2 : Int) ^ 64).toNat

/-- Value of an LSB-first bit list, used to state what a binary literal encodes. -/
def bitsVal : List Bool → Nat
  | [] => 0
  | b :: t => (if b then 1 else 0) + 2 * bitsVal t

/-! ## LUT initialisation (`get_inputs` / `get_lut_init`) -/

/-- A LUT-kind cell as `get_lut_init` sees it: its `X_ORIG_TYPE` attribute,
the raw `X_ORIG_PORT_A1 .. X_ORIG_PORT_A6` attributes (entry `k` of the list
is the attribute for physical pin `A(k+1)`, `none` when absent), and the
`INIT` parameter bits after `Property::extract(0, 64)` (LSB first, absent
high bits read as zero). -/
structure LutCell where
  origType : String
  origPorts : List (Option String)
  initBits : List Bool

/-- Logical input list of a LUT-kind cell, from `get_inputs`; `none` models the
`NPNR_ASSERT_FALSE("unsupported LUT-type cell")`. -/
def get_inputs (t : String) : Option (List String) :=
  if t = "LUT1" then some ["I0"]
  else if t = "LUT2" then some ["I0", "I1"]
  else if t = "LUT3" then some ["I0", "I1", "I2"]
  else if t = "LUT4" then some ["I0", "I1", "I2", "I3"]
  else if t = "LUT5" then some ["I0", "I1", "I2", "I3", "I4"]
  else if t = "LUT6" then some ["I0", "I1", "I2", "I3", "I4", "I5"]
  else if t = "RAMD64E" then some ["RADR0", "RADR1", "RADR2", "RADR3", "RADR4", "RADR5"]
  else if t = "SRL16E" then some ["A0", "A1", "A2", "A3"]
  else if t = "SRLC32E" then some ["A[0]", "A[1]", "A[2]", "A[3]", "A[4]"]
  else if t = "RAMD32" then some ["RADR0", "RADR1", "RADR2", "RADR3", "RADR4"]
  else none

/-- Split a character list at every occurrence of `sep`, keeping empty pieces,
modelling `boost::split(..., boost::is_any_of(" "))` for the single space. -/
def splitOnChar (sep : Char) : List Char → List (List Char)
  | [] => [[]]
  | c :: t =>
    match splitOnChar sep t with
    | [] => [[]]
    | h :: r => if c == sep then [] :: h :: r else (c :: h) :: r

/-- Split a string on spaces. -/
def splitSpaces (s : String) : List String := (splitOnChar ' ' s.data).map String.mk

/-- The `log_to_bit` map of `get_lut_init`: logical pin name to its index in
the cell's logical input list. Built by ascending insertion (so the last
matching index wins) and, like `std::unordered_map::operator[]`, an absent
key reads as `0`. -/
def logToBit (inputs : List String) (p : String) : Nat :=
  (List.range inputs.length).foldl (fun acc j => if inputs.getD j "" == p then j else acc) 0

/-- The `phys_to_log` map of `get_lut_init`: the list of logical pins fed by
physical pin `A(k+1)`, from splitting the `X_ORIG_PORT_A(k+1)` attribute on
spaces (empty when the attribute is absent). -/
def physToLog (c : LutCell) (k : Nat) : List String :=
  match c.origPorts.getD k none with
  | none => []
  | some s => splitSpaces s

/-- Logical address computed for physical table entry `j`: OR of
`1 << log_to_bit[p]` over every logical pin `p` fed by a physical input
asserted in `j`. -/
def logIndex (c : LutCell) (inputs : List String) (j : Nat) : Nat :=
  (List.range 6).foldl
    (fun acc k =>
      if j.testBit k then (physToLog c k).foldl (fun a p => a ||| (1 <<< logToBit inputs p)) acc
      else acc) 0

/-- Bit `i` of the cell's extracted `INIT` property (`init.str.at(i) == S1`). -/
def initAt (c : LutCell) (i : Nat) : Bool := c.initBits.getD i false

/-- The 64 physical INIT bits computed by `get_lut_init(lut6, lut5)`; `none`
models the assertion failure on an unsupported LUT-type cell. When both
sub-LUTs are present the 5-LUT writes entries `0..31` and the 6-LUT entries
`32..63`; a lone LUT writes all 64 entries. -/
def get_lut_init (lut6 lut5 : Option LutCell) : Option (List Bool) :=
  let step (i : Nat) (bits : List Bool) : Option (List Bool) :=
    match (if i = 1 then lut5 else lut6) with
    | none => some bits
    | some c =>
      match get_inputs c.origType with
      | none => none
      | some inputs =>
        let both := lut5.isSome && lut6.isSome
        let lb := if both then (if i = 1 then 0 else 32) else 0
        let ub := if both then (if i = 1 then 32 else 64) else 64
        some ((List.range 64).map (fun j =>
          if lb ≤ j ∧ j < ub then initAt c (logIndex c inputs j) else bits.getD j false))
  (step 0 (List.replicate 64 false)).bind (step 1)

/-! ## The pseudo-PIP table (`get_pseudo_pip_data`) -/

/-- Key of the pseudo-PIP table: `(tile type name, dest wire name, source wire name)`. -/
abbrev PPKey := String × String × String

/-- Entries inserted by one iteration of the IOI3/IOB33 loop of
`get_pseudo_pip_data` (side `s`, tile suffix `s2`, index string `i`). -/
def ppIoi3Body (s s2 i : String) : List (PPKey × List String) :=
  [ ((s ++ "IOI3" ++ s2, s ++ "IOI_OLOGIC" ++ i ++ "_OQ", "IOI_OLOGIC" ++ i ++ "_D1"),
      ["OLOGIC_Y" ++ i ++ ".OMUX.D1",
       "OLOGIC_Y" ++ i ++ ".OQUSED",
       "OLOGIC_Y" ++ i ++ ".OSERDES.DATA_RATE_TQ.BUF"]),
    ((s ++ "IOI3" ++ s2, "IOI_ILOGIC" ++ i ++ "_O", s ++ "IOI_ILOGIC" ++ i ++ "_D"),
      ["IDELAY_Y" ++ i ++ ".IDELAY_TYPE_FIXED",
       "ILOGIC_Y" ++ i ++ ".ZINV_D"]),
    ((s ++ "IOI3" ++ s2, "IOI_ILOGIC" ++ i ++ "_O", s ++ "IOI_ILOGIC" ++ i ++ "_DDLY"),
      ["ILOGIC_Y" ++ i ++ ".IDELMUXE3.P0",
       "ILOGIC_Y" ++ i ++ ".ZINV_D"]),
    ((s ++ "IOI3" ++ s2, s ++ "IOI_OLOGIC" ++ i ++ "_TQ", "IOI_OLOGIC" ++ i ++ "_T1"),
      ["OLOGIC_Y" ++ i ++ ".ZINV_T1"]) ] ++
  (if i = "0" then
    [ ((s ++ "IOB33" ++ s2, "IOB_O_IN1", "IOB_O_OUT0"), []),
      ((s ++ "IOB33" ++ s2, "IOB_O_OUT0", "IOB_O0"), []),
      ((s ++ "IOB33" ++ s2, "IOB_T_IN1", "IOB_T_OUT0"), []),
      ((s ++ "IOB33" ++ s2, "IOB_T_OUT0", "IOB_T0"), []),
      ((s ++ "IOB33" ++ s2, "IOB_DIFFI_IN0", "IOB_PADOUT1"), []) ]
  else [])

/-- The IOI3/IOB33 section of the pseudo-PIP table. -/
def ppIoi3 : List (PPKey × List String) :=
  ["L", "R"].flatMap fun s =>
    ["", "_TBYTESRC", "_TBYTETERM", "_SING"].flatMap fun s2 =>
      (if s2 = "_SING" then ["", "0", "1"] else ["0", "1"]).flatMap fun i =>
        ppIoi3Body s s2 i

/-- Entries inserted by one iteration of the RIOI/RIOB18 loop (tile suffix
`s2`, index string `i`). -/
def ppRioiBody (s2 i : String) : List (PPKey × List String) :=
  [ (("RIOI" ++ s2, "RIOI_OLOGIC" ++ i ++ "_OQ", "IOI_OLOGIC" ++ i ++ "_D1"),
      ["OLOGIC_Y" ++ i ++ ".OMUX.D1",
       "OLOGIC_Y" ++ i ++ ".OQUSED",
       "OLOGIC_Y" ++ i ++ ".OSERDES.DATA_RATE_TQ.BUF"]),
    (("RIOI" ++ s2, "RIOI_OLOGIC" ++ i ++ "_OFB", "RIOI_OLOGIC" ++ i ++ "_OQ"), []),
    (("RIOI" ++ s2, "RIOI_O" ++ i, "RIOI_ODELAY" ++ i ++ "_DATAOUT"), []),
    (("RIOI" ++ s2, "RIOI_OLOGIC" ++ i ++ "_OFB", "IOI_OLOGIC" ++ i ++ "_D1"),
      ["OLOGIC_Y" ++ i ++ ".OMUX.D1",
       "OLOGIC_Y" ++ i ++ ".OSERDES.DATA_RATE_TQ.BUF"]),
    (("RIOI" ++ s2, "IOI_ILOGIC" ++ i ++ "_O", "RIOI_ILOGIC" ++ i ++ "_D"),
      ["ILOGIC_Y" ++ i ++ ".ZINV_D"]),
    (("RIOI" ++ s2, "IOI_ILOGIC" ++ i ++ "_O", "RIOI_ILOGIC" ++ i ++ "_DDLY"),
      ["ILOGIC_Y" ++ i ++ ".IDELMUXE3.P0",
       "ILOGIC_Y" ++ i ++ ".ZINV_D"]),
    (("RIOI" ++ s2, "RIOI_OLOGIC" ++ i ++ "_TQ", "IOI_OLOGIC" ++ i ++ "_T1"),
      ["OLOGIC_Y" ++ i ++ ".ZINV_T1"]),
    (("RIOI" ++ s2, "RIOI_OLOGIC" ++ i ++ "_OFB", "RIOI_ODELAY" ++ i ++ "_ODATAIN"),
      ["OLOGIC_Y" ++ i ++ ".ZINV_ODATAIN"]) ] ++
  (if i = "0" then
    [ (("RIOB18" ++ s2, "IOB_O_IN1", "IOB_O_OUT0"), []),
      (("RIOB18" ++ s2, "IOB_O_OUT0", "IOB_O0"), []),
      (("RIOB18" ++ s2, "IOB_T_IN1", "IOB_T_OUT0"), []),
      (("RIOB18" ++ s2, "IOB_T_OUT0", "IOB_T0"), []),
      (("RIOB18" ++ s2, "IOB_DIFFI_IN0", "IOB_PADOUT1"), []) ]
  else [])

/-- The RIOI/RIOB18 section of the pseudo-PIP table. -/
def ppRioi : List (PPKey × List String) :=
  ["", "_TBYTESRC", "_TBYTETERM", "_SING"].flatMap fun s2 =>
    (if s2 = "_SING" then ["0"] else ["0", "1"]).flatMap fun i =>
      ppRioiBody s2 i

/-- CLK_HROW BUFH mux entries for one top/bottom choice `s1`. -/
def ppHrowFor (s1 : String) : List (PPKey × List String) :=
  ["L", "R"].flatMap fun s2 =>
    (List.range 12).flatMap fun i =>
      let ii := natDecimal i
      let hck := s2 ++ ii
      let buf := (if s2 = "R" then "X1Y" else "X0Y") ++ ii
      [ (("CLK_HROW_" ++ s1 ++ "_R", "CLK_HROW_CK_HCLK_OUT_" ++ hck,
          "CLK_HROW_CK_MUX_OUT_" ++ hck),
          ["BUFHCE.BUFHCE_" ++ buf ++ ".IN_USE",
           "BUFHCE.BUFHCE_" ++ buf ++ ".ZINV_CE"]) ]

/-- CLK_BUFG BUFGCTRL mux entries for one top/bottom choice `s1`: the `_I0`
input asserts `IS_IGNORE1_INVERTED` plus `ZINV_CE0`/`ZINV_S0`, the `_I1`
input `IS_IGNORE0_INVERTED` plus `ZINV_CE1`/`ZINV_S1`. -/
def ppBufgFor (s1 : String) : List (PPKey × List String) :=
  (List.range 16).flatMap fun i =>
    let ii := natDecimal i
    [ (("CLK_BUFG_" ++ s1 ++ "_R", "CLK_BUFG_BUFGCTRL" ++ ii ++ "_O",
        "CLK_BUFG_BUFGCTRL" ++ ii ++ "_I0"),
        ["BUFGCTRL.BUFGCTRL_X0Y" ++ ii ++ ".IN_USE",
         "BUFGCTRL.BUFGCTRL_X0Y" ++ ii ++ ".IS_IGNORE1_INVERTED",
         "BUFGCTRL.BUFGCTRL_X0Y" ++ ii ++ ".ZINV_CE0",
         "BUFGCTRL.BUFGCTRL_X0Y" ++ ii ++ ".ZINV_S0"]),
      (("CLK_BUFG_" ++ s1 ++ "_R", "CLK_BUFG_BUFGCTRL" ++ ii ++ "_O",
        "CLK_BUFG_BUFGCTRL" ++ ii ++ "_I1"),
        ["BUFGCTRL.BUFGCTRL_X0Y" ++ ii ++ ".IN_USE",
         "BUFGCTRL.BUFGCTRL_X0Y" ++ ii ++ ".IS_IGNORE0_INVERTED",
         "BUFGCTRL.BUFGCTRL_X0Y" ++ ii ++ ".ZINV_CE1",
         "BUFGCTRL.BUFGCTRL_X0Y" ++ ii ++ ".ZINV_S1"]) ]

/-- The CLK_HROW / CLK_BUFG sections, in the insertion order of the source
(for each of TOP and BOT: the twelve BUFH muxes, then the sixteen BUFGCTRLs). -/
def ppHrowBufg : List (PPKey × List String) :=
  ["TOP", "BOT"].flatMap fun s1 => ppHrowFor s1 ++ ppBufgFor s1

/-- HCLK_IOI BUFR-bypass entries (`rclk_y_to_i = {2, 3, 0, 1}`). -/
def ppHclkIoi : List (PPKey × List String) :=
  (List.range 4).flatMap fun y =>
    let yy := natDecimal y
    let ii := natDecimal ([2, 3, 0, 1].getD y 0)
    [ (("HCLK_IOI3", "HCLK_IOI_RCLK_OUT" ++ ii, "HCLK_IOI_RCLK_BEFORE_DIV" ++ ii),
        ["BUFR_Y" ++ yy ++ ".IN_USE", "BUFR_Y" ++ yy ++ ".BUFR_DIVIDE.BYPASS"]),
      (("HCLK_IOI", "HCLK_IOI_RCLK_OUT" ++ ii, "HCLK_IOI_RCLK_BEFORE_DIV" ++ ii),
        ["BUFR_Y" ++ yy ++ ".IN_USE", "BUFR_Y" ++ yy ++ ".BUFR_DIVIDE.BYPASS"]) ]

/-- INT_INTERFACE entries (inserted with `pp_config[key];`, i.e. empty lists). -/
def ppIntInterface : List (PPKey × List String) :=
  ["L", "R"].flatMap fun s =>
    (List.range 24).flatMap fun i =>
      let ii := natDecimal i
      [ (("INT_INTERFACE_" ++ s, "INT_INTERFACE_LOGIC_OUTS_" ++ s ++ ii,
          "INT_INTERFACE_LOGIC_OUTS_" ++ s ++ "_B" ++ ii), []) ]

/-- The full pseudo-PIP table built by `get_pseudo_pip_data`, in insertion
order. All inserted keys are distinct, so ordered lookup agrees with the
`std::unordered_map` of the source. -/
def pp_config : List (PPKey × List String) :=
  ppIoi3 ++ ppRioi ++ ppHrowBufg ++ ppHclkIoi ++ ppIntInterface

/-- Lookup in the pseudo-PIP table (`pp_config.count(ppk)` / `pp_config.at(ppk)`). -/
def ppLookup (k : PPKey) : Option (List String) :=
  (pp_config.find? (fun e => e.1 == k)).map (fun e => e.2)

/-! ## The routing emitter (`write_pip`) -/

/-- Test for the SING IOI tile names that get the top-half `Y0 -> Y1` fix-up. -/
def singIoiName (tileName : String) : Bool :=
  strStartsWith tileName "RIOI3_SING" || strStartsWith tileName "LIOI3_SING" ||
    strStartsWith tileName "RIOI_SING"

/-- Lines emitted by `write_pip` for one used PIP. External facts enter as
parameters: `tileName` is the tile instance name, `tileType`/`dst`/`src` the
type and wire names from the database, `dstIntent` the intent of the
destination wire, `tileRouting` whether `pd.flags == PIP_TILE_ROUTING`,
`isTopSing` the comparison `pip.tile < ctx->getHclkForIoi(pip.tile)`, and
`oclkmBound` whether the companion `OCLKM` wire has a bound net. The
`pips_by_tile` side effect and the route-thru warning produce no lines and
are not modelled. -/
def write_pip (tileName tileType dst src : String) (dstIntent : String) (tileRouting : Bool)
    (isTopSing : Bool) (oclkmBound : Bool) : List String :=
  if dstIntent == "PSEUDO_GND" || dstIntent == "PSEUDO_VCC" then []
  else if !tileRouting then []
  else
    match ppLookup (tileType, dst, src) with
    | some pp =>
      pp.map (fun c =>
        let c2 := if singIoiName tileName && isTopSing then replFirstStr c "Y0" "Y1" else c
        tileName ++ "." ++ c2)
    | none =>
      if strStartsWith tileName "DSP_L" || strStartsWith tileName "DSP_R" then []
      else
        let origDst := dst
        let sing := singIoiName tileName
        if sing && (strContains src "IMUX" || strContains src "CTRL0") && !strContains dst "CLK"
        then []
        else
          let src1 := if sing then replFirstStr src "_SING_" "_" else src
          let dst1 := if sing && isTopSing then replFirstStr dst "_0" "_1" else dst
          let hasOl := sing && isTopSing && strContains dst1 "OLOGIC0"
          let dst2 := if hasOl then replFirstStr dst1 "OLOGIC0" "OLOGIC1" else dst1
          let src2 := if hasOl then replFirstStr src1 "_0" "_1" else src1
          if strContains tileName "IOI" && strContains dst2 "OCLKB" &&
              strContains src2 "IOI_OCLKM_" then []
          else
            let line1 := tileName ++ "." ++ dst2 ++ "." ++ src2
            let extra :=
              if strContains tileName "IOI" && strStartsWith dst2 "IOI_OCLK_" then
                let dstM := replFirstStr dst2 "OCLK" "OCLKM"
                let _origM := replFirstStr origDst "OCLK" "OCLKM"
                if !oclkmBound then [tileName ++ "." ++ dstM ++ "." ++ src2] else []
              else []
            line1 :: extra

/-! ## Flip-flop configuration (`write_ffs_config`) -/

/-- A placed FF sub-bel as `write_ffs_config` sees it: the bel name, the
`X_ORIG_TYPE` attribute, the `INIT` parameter (`int_or_default(..., 0)`),
the `IS_CLK_INVERTED` parameter read as `== 1`, the names of the nets on the
`SR` and `CE` ports (`none` when unconnected), and the suffixes emitted by
`write_routing_bel` for the D-input mux (external routing data). -/
structure FFCell where
  belName : String
  origType : String
  initParam : Int
  clkInvParam : Bool
  srNet : Option String
  ceNet : Option String
  dmuxSuffixes : List String

/-- Decode of the `X_ORIG_TYPE` branch of `write_ffs_config`: `(zrst,
negedge, latch, sync)`; `none` models `log_error("unsupported FF type")`. -/
def ffTypeDecode (t : String) : Option (Bool × Bool × Bool × Bool) :=
  if t = "FDRE" then some (true, false, false, true)
  else if t = "FDRE_1" then some (true, true, false, true)
  else if t = "FDSE" then some (false, false, false, true)
  else if t = "FDSE_1" then some (false, true, false, true)
  else if t = "FDCE" then some (true, false, false, false)
  else if t = "FDCE_1" then some (true, true, false, false)
  else if t = "FDPE" then some (false, false, false, false)
  else if t = "FDPE_1" then some (false, true, false, false)
  else none

/-- Whether the FF's SR input counts as used: the net exists and is not the
packer's ground net. -/
def ffSrUsed (ff : FFCell) : Bool :=
  match ff.srNet with
  | none => false
  | some n => n != "$PACKER_GND_NET"

/-- Whether the FF's CE input counts as used: the net exists and is not the
packer's VCC net. -/
def ffCeUsed (ff : FFCell) : Bool :=
  match ff.ceNet with
  | none => false
  | some n => n != "$PACKER_VCC_NET"

/-- The full signature the `SET_CHECK` assertions compare between the FFs of a
half: `(negedge, latch, sync, clkinv, sr-used, ce-used)`, where `clkinv` is
forced to `true` for a negedge (`_1`) variant. -/
def ffSig (ff : FFCell) : Option (Bool × Bool × Bool × Bool × Bool × Bool) :=
  (ffTypeDecode ff.origType).map (fun d =>
    (d.2.1, d.2.2.1, d.2.2.2, if d.2.1 then true else ff.clkInvParam, ffSrUsed ff, ffCeUsed ff))

/-- The running state of `write_ffs_config`'s per-half loop. -/
structure FFState where
  found : Bool
  negedge : Bool
  latch : Bool
  sync : Bool
  clkinv : Bool
  srused : Bool
  ceused : Bool

/-- One `SET_CHECK(dst, src)` step: assert equality once an FF has been seen,
otherwise record the value. -/
def setCheck (found : Bool) (cur v : Bool) : Except String Bool :=
  if found then (if cur = v then .ok cur else .error "SET_CHECK assertion failed")
  else .ok v

/-- The `ZINI`/`ZRST` bits one bound FF writes under its bel-name prefix
(`zinit` is `INIT != 1`, `zrst` comes from the type decode). -/
def ffOwnLines (pre : List String) (ff : FFCell) (zrst : Bool) : List String :=
  (if ff.initParam != 1 then [joinPre pre ++ ff.belName ++ "." ++ "ZINI"] else []) ++
  (if zrst then [joinPre pre ++ ff.belName ++ "." ++ "ZRST"] else [])

/-- Processing of one bound FF by `write_ffs_config` (the body of the inner
loop): decode the type, thread the six `SET_CHECK`s in source order (negedge,
latch and sync during the type decode, then clock inversion against the just
checked negedge state, then SR-used and CE-used), and emit the FF's own bits
followed by its D-input mux routing lines. -/
def processFF (pre : List String) (st : FFState) (ff : FFCell) :
    Except String (List String × FFState) :=
  match ffTypeDecode ff.origType with
  | none => .error "unsupported FF type"
  | some d =>
    match setCheck st.found st.negedge d.2.1 with
    | .error e => .error e
    | .ok negedge =>
      match setCheck st.found st.latch d.2.2.1 with
      | .error e => .error e
      | .ok latch =>
        match setCheck st.found st.sync d.2.2.2 with
        | .error e => .error e
        | .ok sync =>
          match setCheck st.found st.clkinv (if negedge then true else ff.clkInvParam) with
          | .error e => .error e
          | .ok clkinv =>
            match setCheck st.found st.srused (ffSrUsed ff) with
            | .error e => .error e
            | .ok srused =>
              match setCheck st.found st.ceused (ffCeUsed ff) with
              | .error e => .error e
              | .ok ceused =>
                .ok (ffOwnLines pre ff d.1 ++
                    ff.dmuxSuffixes.map (fun s => joinPre pre ++ s),
                  { found := true, negedge, latch, sync, clkinv, srused, ceused })

/-- Processing of a list of bound FFs, accumulating lines and state. -/
def processFFs (pre : List String) (st : FFState) :
    List FFCell → Except String (List String × FFState)
  | [] => .ok ([], st)
  | ff :: rest =>
    match processFF pre st ff with
    | .error e => .error e
    | .ok (l1, st1) =>
      match processFFs pre st1 rest with
      | .error e => .error e
      | .ok (l2, st2) => .ok (l1 ++ l2, st2)

/-- The half name chosen by `get_half_name(half, is_m)`. -/
def get_half_name (half : Nat) (isM : Bool) : String :=
  if isM then (if half = 0 then "SLICEM_X0" else "SLICEL_X1")
  else (if half = 0 then "SLICEL_X0" else "SLICEL_X1")

/-- The trailing half-wide mode bits of `write_ffs_config`, written from the
agreed state after the FF loop. -/
def write_ffs_tail (pre : List String) (st : FFState) : List String :=
  (if st.latch then [joinPre pre ++ "LATCH"] else []) ++
  (if st.sync then [joinPre pre ++ "FFSYNC"] else []) ++
  (if st.clkinv then [joinPre pre ++ "CLKINV"] else []) ++
  (if !st.clkinv then [joinPre pre ++ "NOCLKINV"] else []) ++
  (if st.srused then [joinPre pre ++ "SRUSEDMUX"] else []) ++
  (if st.ceused then [joinPre pre ++ "CEUSEDMUX"] else [])

/-- The initial loop state of `write_ffs_config` (all flags false, no FF seen). -/
def st0FF : FFState :=
  { found := false, negedge := false, latch := false, sync := false,
    clkinv := false, srused := false, ceused := false }

/-- Lines emitted by `write_ffs_config` for one half of a logic tile holding
the bound FFs `ffs` (the non-null cells of the eight FF sub-bel slots, in
slot order). -/
def write_ffs_config (tname : String) (half : Nat) (ffs : List FFCell) :
    Except String (List String) :=
  let pre := [tname, get_half_name half (strContains tname "CLBLM")]
  match processFFs pre st0FF ffs with
  | .error e => .error e
  | .ok (lines, st) => .ok (lines ++ write_ffs_tail pre st)

/-- The six-component value tuple of the `SET_CHECK` state. -/
def stTuple (st : FFState) : Bool × Bool × Bool × Bool × Bool × Bool :=
  (st.negedge, st.latch, st.sync, st.clkinv, st.srused, st.ceused)

/-- The state recorded after the first bound FF of a half. -/
def stOf (ff : FFCell) (d : Bool × Bool × Bool × Bool) : FFState :=
  { found := true, negedge := d.2.1, latch := d.2.2.1, sync := d.2.2.2,
    clkinv := if d.2.1 then true else ff.clkInvParam,
    srused := ffSrUsed ff, ceused := ffCeUsed ff }

/-- The concatenation of the per-FF lines of a half, as emitted on a
successful run. -/
def ffsLines (pre : List String) : List FFCell → List String
  | [] => []
  | ff :: rest =>
    ffOwnLines pre ff (((ffTypeDecode ff.origType).map (fun d => d.1)).getD false) ++
      ff.dmuxSuffixes.map (fun s => joinPre pre ++ s) ++ ffsLines pre rest


/-! ## I/O bank aggregation (`write_io_config` and the flush in `write_io`) -/

/-- The per-HCLK-bank accumulator record. -/
structure BankIoConfig where
  stepdown : Bool := false
  vref : Bool := false
  tmds33 : Bool := false
  lvds25 : Bool := false
  onlyDiff : Bool := false
deriving DecidableEq

/-- A PAD cell as the bank-aggregation part of `write_io_config` sees it:
the defaulted `IOSTANDARD` attribute, whether the pad net has a driver
(output) and an `INBUF` user (input), whether the tile is a high-performance
`RIOB18_*` tile, and the HCLK tile index `getHclkForIob(pad->bel)` keying
`ioconfig_by_hclk`. -/
structure Pad where
  iostandard : String
  isOutput : Bool
  isInput : Bool
  isRiob18 : Bool
  hclk : Nat

/-- Update-or-insert on the association-list model of
`ioconfig_by_hclk[k]` (`operator[]` default-constructs a fresh record). -/
def updCfg (k : Nat) (f : BankIoConfig → BankIoConfig) :
    List (Nat × BankIoConfig) → List (Nat × BankIoConfig)
  | [] => [(k, f {})]
  | (k1, c) :: t => if k1 = k then (k1, f c) :: t else (k1, c) :: updCfg k f t

/-- The `IOSTANDARD` after stripping a `DIFF_` prefix. -/
def padIostd2 (io : String) : String :=
  if strStartsWith io "DIFF_" then ⟨io.data.drop 5⟩ else io

/-- The `is_diff` flag of `write_io_config`. -/
def padIsDiff (io : String) : Bool :=
  io == "TMDS_33" || strStartsWith io "LVDS" || strStartsWith io "DIFF_"

/-- The `is_sstl` flag of `write_io_config` (computed on the stripped name). -/
def padIsSstl (io : String) : Bool :=
  padIostd2 io == "SSTL12" || padIostd2 io == "SSTL135" || padIostd2 io == "SSTL15"

/-- The `is_low_volt_lvcmos` flag (computed on the unstripped name). -/
def padIsLowVolt (io : String) : Bool :=
  io == "LVCMOS12" || io == "LVCMOS15" || io == "LVCMOS18"

/-- Bank-aggregation effect of `write_io_config` for one PAD: the
`ioconfig_by_hclk` updates and the `log_error` exits, in source order. The
per-pad feature lines are outside the scope of the aggregation claims and
are not modelled. -/
def processPad (m : List (Nat × BankIoConfig)) (p : Pad) :
    Except String (List (Nat × BankIoConfig)) :=
  let iostd2 := padIostd2 p.iostandard
  let m1 := if p.iostandard == "TMDS_33" || strStartsWith p.iostandard "LVDS" then
    updCfg p.hclk (fun c => { c with onlyDiff := true }) m else m
  let m2 := if p.iostandard == "TMDS_33" then
    updCfg p.hclk (fun c => { c with tmds33 := true }) m1 else m1
  let m3 := if p.iostandard == "LVDS_25" then
    updCfg p.hclk (fun c => { c with lvds25 := true }) m2 else m2
  if p.isOutput && (iostd2 == "LVCMOS33" || iostd2 == "LVTTL") && p.isRiob18 then
    .error "high performance banks (RIOB18) do not support that IO standard"
  else
    match (if p.isInput && !padIsDiff p.iostandard then
        (if (iostd2 == "LVCMOS33" || iostd2 == "LVTTL" || iostd2 == "LVCMOS25") &&
            p.isRiob18 then
          .error "high performance banks (RIOB18) do not support that IO standard"
        else if padIsSstl p.iostandard then
          .ok (updCfg p.hclk (fun c => { c with vref := true }) m3)
        else .ok m3)
      else (.ok m3 : Except String (List (Nat × BankIoConfig)))) with
    | .error e => .error e
    | .ok m4 =>
      if !p.isRiob18 && (padIsLowVolt p.iostandard || padIsSstl p.iostandard) then
        (if iostd2 == "SSTL12" then
          .error "SSTL12 is only available on high performance banks."
        else .ok (updCfg p.hclk (fun c => { c with stepdown := true }) m4))
      else .ok m4

/-- Bank-aggregation effect of the PAD pass of `write_io` over a pad list. -/
def processPads (m : List (Nat × BankIoConfig)) : List Pad →
    Except String (List (Nat × BankIoConfig))
  | [] => .ok m
  | p :: rest =>
    match processPad m p with
    | .error e => .error e
    | .ok m2 => processPads m2 rest

/-- Lines written for one `ioconfig_by_hclk` entry by the flush loop at the
end of `write_io`, in source order. -/
def bankFlushLines (tn : Nat → String) (k : Nat) (c : BankIoConfig) : List String :=
  (if c.stepdown then [tn k ++ "." ++ "STEPDOWN"] else []) ++
  (if c.vref then [tn k ++ "." ++ "VREF.V_675_MV"] else []) ++
  (if c.onlyDiff then [tn k ++ "." ++ "ONLY_DIFF_IN_USE"] else []) ++
  (if c.tmds33 then [tn k ++ "." ++ "TMDS_33_IN_USE"] else []) ++
  (if c.lvds25 then [tn k ++ "." ++ "LVDS_25_IN_USE"] else [])

/-- The whole flush loop of `write_io` (`tn` maps an HCLK tile index to its
tile name, `get_tile_name`). -/
def flushIoConfig (tn : Nat → String) (m : List (Nat × BankIoConfig)) : List String :=
  m.flatMap (fun e => bankFlushLines tn e.1 e.2)

/-- The pad predicate of the VREF aggregation claim: an input pad with a
(non-differential) SSTL `IOSTANDARD`; exactly these pads execute
`ioconfig_by_hclk[hclk].vref = true`. -/
def sstlInputPad (p : Pad) : Bool :=
  p.isInput && (p.iostandard == "SSTL12" || p.iostandard == "SSTL135" ||
    p.iostandard == "SSTL15")

/-- Lookup in the association-list model of `ioconfig_by_hclk`. -/
def getCfg : List (Nat × BankIoConfig) → Nat → Option BankIoConfig
  | [], _ => none
  | (k1, c) :: t, k => if k1 = k then some c else getCfg t k

/-- The `vref` flag stored for HCLK `k` (false when the bank has no record). -/
def vrefFlag (m : List (Nat × BankIoConfig)) (k : Nat) : Bool :=
  ((getCfg m k).getD {}).vref

/-- The HCLK keys of the accumulator, in insertion order. -/
def cfgKeys (m : List (Nat × BankIoConfig)) : List Nat := m.map (fun e => e.1)

/-- A concrete injective HCLK-index-to-tile-name map used to instantiate the
VREF aggregation theorem. -/
def c7_tn (n : Nat) : String := ⟨List.replicate n 'a'⟩

/-! ## PLL / MMCM clock-output divider math and lock/filter tables -/

/-- The per-clock-output values computed by `write_pll_clkout` /
`write_mmcm_clkout` before emission. -/
structure ClkoutCfg where
  high : Int
  low : Int
  phasemux : Int
  delaytime : Int
  frac : Int
  noCount : Bool
  edge : Bool

/-- Truncation of a rational towards zero, modelling the C cast
`(int)(double)`. -/
def ratTrunc (q : ℚ) : Int := q.num.tdiv q.den

/-- The computation block of `write_pll_clkout` (PLLE2_ADV): `frac` is
computed only for `CLKOUT1` and `CLKFBOUT`; `%` and `/` on `phase_eights`
are C truncated division. -/
def pll_clkout_cfg (name : String) (divide phase : ℚ) : ClkoutCfg :=
  if divide ≤ 1 then
    { high := 1, low := 1, phasemux := 0, delaytime := 0, frac := 0,
      noCount := true, edge := false }
  else
    let high : Int := ⌊divide / 2⌋
    let low : Int := ⌊divide⌋ - high
    let frac : Int :=
      if name = "CLKOUT1" ∨ name = "CLKFBOUT" then ⌊divide * 8⌋ - ⌊divide⌋ * 8 else 0
    let pe : Int := ⌊phase / 360 * divide * 8⌋
    { high := high, low := low, phasemux := pe.tmod 8, delaytime := pe.tdiv 8,
      frac := frac, noCount := false, edge := high != low }

/-- The computation block of `write_mmcm_clkout` (MMCME2_ADV): identical to
the PLL one except that `frac` is computed for `CLKOUT0` and `CLKFBOUT`. -/
def mmcm_clkout_cfg (name : String) (divide phase : ℚ) : ClkoutCfg :=
  if divide ≤ 1 then
    { high := 1, low := 1, phasemux := 0, delaytime := 0, frac := 0,
      noCount := true, edge := false }
  else
    let high : Int := ⌊divide / 2⌋
    let low : Int := ⌊divide⌋ - high
    let frac : Int :=
      if name = "CLKOUT0" ∨ name = "CLKFBOUT" then ⌊divide * 8⌋ - ⌊divide⌋ * 8 else 0
    let pe : Int := ⌊phase / 360 * divide * 8⌋
    { high := high, low := low, phasemux := pe.tmod 8, delaytime := pe.tdiv 8,
      frac := frac, noCount := false, edge := high != low }

/-- Lines emitted by `write_pll_clkout` for one clock output (`netExists` is
whether the output net exists; `DIVCLK` and `CLKFBOUT` count as used
unconditionally). -/
def pll_clkout_lines (pre : List String) (name : String) (divide phase : ℚ)
    (netExists : Bool) : List String :=
  let g := pll_clkout_cfg name divide phase
  let used := name == "DIVCLK" || name == "CLKFBOUT" || netExists
  if name == "DIVCLK" then
    [write_int_vector_line pre "DIVCLK_DIVCLK_HIGH_TIME[5:0]" (toU64 g.high) 6 false,
     write_int_vector_line pre "DIVCLK_DIVCLK_LOW_TIME[5:0]" (toU64 g.low) 6 false] ++
    (if g.edge then [joinPre pre ++ "DIVCLK_DIVCLK_EDGE[0]"] else []) ++
    (if g.noCount then [joinPre pre ++ "DIVCLK_DIVCLK_NO_COUNT[0]"] else [])
  else if used then
    [joinPre pre ++ name ++ "_CLKOUT1_OUTPUT_ENABLE[0]",
     write_int_vector_line pre (name ++ "_CLKOUT1_HIGH_TIME[5:0]") (toU64 g.high) 6 false,
     write_int_vector_line pre (name ++ "_CLKOUT1_LOW_TIME[5:0]") (toU64 g.low) 6 false,
     write_int_vector_line pre (name ++ "_CLKOUT1_PHASE_MUX[2:0]") (toU64 g.phasemux) 3 false] ++
    (if g.edge then [joinPre pre ++ name ++ "_CLKOUT2_EDGE[0]"] else []) ++
    (if g.noCount then [joinPre pre ++ name ++ "_CLKOUT2_NO_COUNT[0]"] else []) ++
    [write_int_vector_line pre (name ++ "_CLKOUT2_DELAY_TIME[5:0]") (toU64 g.delaytime) 6 false] ++
    (if g.frac != 0 then
      (if g.edge then [joinPre pre ++ name ++ "_CLKOUT2_FRAC_EN[0]"] else []) ++
      [write_int_vector_line pre (name ++ "_CLKOUT2_FRAC[2:0]") (toU64 g.frac) 3 false]
    else [])
  else []

/-- A PLLE2_ADV cell as `write_pll` sees it: numeric parameters (as read by
`float_or_default`), string parameters, boolean parameters (as read by
`bool_or_default`), and whether a given output net exists. -/
structure PllCell where
  ratParams : String → Option ℚ
  strParams : String → Option String
  boolParams : String → Bool
  netExists : String → Bool

/-- Lines emitted by `write_pll` for one PLLE2_ADV cell placed in tile
`tile`; `Except.error` models the `NPNR_ASSERT_FALSE` on an unsupported
`COMPENSATION`. Note that the lock table `LKTABLE` and filter register
`FILTREG1_RESERVED` are emitted as fixed constants — `write_pll` never reads
`CLKFBOUT_MULT` outside the `CLKFBOUT` divider math and performs no range
check on it. -/
def write_pll (tile : String) (c : PllCell) : Except String (List String) :=
  let pre := [tile, "PLLE2_ADV"]
  let fod := fun (n : String) (d : ℚ) => (c.ratParams n).getD d
  let clk := fun (name : String) =>
    pll_clkout_lines pre name
      (fod (name ++ (if name == "CLKFBOUT" then "_MULT" else "_DIVIDE")) 1)
      (fod (name ++ "_PHASE") 1) (c.netExists name)
  let head :=
    [joinPre pre ++ "IN_USE"] ++
    (if c.boolParams "IS_PWRDWN_INVERTED" then [joinPre pre ++ "ZINV_PWRDWN"] else []) ++
    (if c.boolParams "IS_RST_INVERTED" then [joinPre pre ++ "ZINV_RST"] else []) ++
    (if c.boolParams "IS_CLKINSEL_INVERTED" then [joinPre pre ++ "INV_CLKINSEL"] else [])
  let body := clk "DIVCLK" ++ clk "CLKFBOUT" ++ clk "CLKOUT0" ++ clk "CLKOUT1" ++
    clk "CLKOUT2" ++ clk "CLKOUT3" ++ clk "CLKOUT4" ++ clk "CLKOUT5"
  let comp := (c.strParams "COMPENSATION").getD "INTERNAL"
  if comp = "INTERNAL" then
    .ok (head ++ body ++
      [joinPre (pre ++ ["COMPENSATION"]) ++ "Z_ZHOLD_OR_CLKIN_BUF",
       write_int_vector_line pre "FILTREG1_RESERVED[11:0]" 0x8 12 false,
       write_int_vector_line pre "LKTABLE[39:0]" 0xB5BE8FA401 40 false,
       joinPre pre ++ "LOCKREG3_RESERVED[0]",
       write_int_vector_line pre "TABLE[9:0]" 0x3B4 10 false])
  else .error "unsupported compensation type"
/-- The `lk_table` array of `write_mmcm`, transcribed bit for bit. -/
def mmcm_lk_table : List Nat := [
  0b0011000110111110100011111010010000000001, 0b0011000110111110100011111010010000000001,
  0b0100001000111110100011111010010000000001, 0b0101101011111110100011111010010000000001,
  0b0111001110111110100011111010010000000001, 0b1000110001111110100011111010010000000001,
  0b1001110011111110100011111010010000000001, 0b1011010110111110100011111010010000000001,
  0b1100111001111110100011111010010000000001, 0b1110011100111110100011111010010000000001,
  0b1111111111111000010011111010010000000001, 0b1111111111110011100111111010010000000001,
  0b1111111111101110111011111010010000000001, 0b1111111111101011110011111010010000000001,
  0b1111111111101000101011111010010000000001, 0b1111111111100111000111111010010000000001,
  0b1111111111100011111111111010010000000001, 0b1111111111100010011011111010010000000001,
  0b1111111111100000110111111010010000000001, 0b1111111111011111010011111010010000000001,
  0b1111111111011101101111111010010000000001, 0b1111111111011100001011111010010000000001,
  0b1111111111011010100111111010010000000001, 0b1111111111011001000011111010010000000001,
  0b1111111111011001000011111010010000000001, 0b1111111111010111011111111010010000000001,
  0b1111111111010101111011111010010000000001, 0b1111111111010101111011111010010000000001,
  0b1111111111010100010111111010010000000001, 0b1111111111010100010111111010010000000001,
  0b1111111111010010110011111010010000000001, 0b1111111111010010110011111010010000000001,
  0b1111111111010010110011111010010000000001, 0b1111111111010001001111111010010000000001,
  0b1111111111010001001111111010010000000001, 0b1111111111010001001111111010010000000001,
  0b1111111111001111101011111010010000000001, 0b1111111111001111101011111010010000000001,
  0b1111111111001111101011111010010000000001, 0b1111111111001111101011111010010000000001,
  0b1111111111001111101011111010010000000001, 0b1111111111001111101011111010010000000001,
  0b1111111111001111101011111010010000000001, 0b1111111111001111101011111010010000000001,
  0b1111111111001111101011111010010000000001, 0b1111111111001111101011111010010000000001,
  0b1111111111001111101011111010010000000001, 0b1111111111001111101011111010010000000001,
  0b1111111111001111101011111010010000000001, 0b1111111111001111101011111010010000000001,
  0b1111111111001111101011111010010000000001, 0b1111111111001111101011111010010000000001,
  0b1111111111001111101011111010010000000001, 0b1111111111001111101011111010010000000001,
  0b1111111111001111101011111010010000000001, 0b1111111111001111101011111010010000000001,
  0b1111111111001111101011111010010000000001, 0b1111111111001111101011111010010000000001,
  0b1111111111001111101011111010010000000001, 0b1111111111001111101011111010010000000001,
  0b1111111111001111101011111010010000000001, 0b1111111111001111101011111010010000000001,
  0b1111111111001111101011111010010000000001 ]

/-- The `filter_lookup_low` array of `write_mmcm`, transcribed bit for bit. -/
def mmcm_filter_lookup_low : List Nat := [
  0b0010111100, 0b0010111100,
  0b0010111100, 0b0010111100,
  0b0010011100, 0b0010101100,
  0b0010110100, 0b0010001100,
  0b0010010100, 0b0010010100,
  0b0010100100, 0b0010111000,
  0b0010111000, 0b0010111000,
  0b0010111000, 0b0010000100,
  0b0010000100, 0b0010000100,
  0b0010011000, 0b0010011000,
  0b0010011000, 0b0010011000,
  0b0010011000, 0b0010011000,
  0b0010011000, 0b0010101000,
  0b0010101000, 0b0010101000,
  0b0010101000, 0b0010101000,
  0b0010110000, 0b0010110000,
  0b0010110000, 0b0010110000,
  0b0010110000, 0b0010110000,
  0b0010110000, 0b0010110000,
  0b0010110000, 0b0010110000,
  0b0010110000, 0b0010110000,
  0b0010110000, 0b0010110000,
  0b0010110000, 0b0010110000,
  0b0010110000, 0b0010001000,
  0b0010001000, 0b0010001000,
  0b0010001000, 0b0010001000,
  0b0010001000, 0b0010001000,
  0b0010001000, 0b0010001000,
  0b0010001000, 0b0010001000,
  0b0010001000, 0b0010001000,
  0b0010001000, 0b0010001000,
  0b0010001000, 0b0010001000 ]

/-- The `filter_lookup_low_ss` array of `write_mmcm`, transcribed bit for bit. -/
def mmcm_filter_lookup_low_ss : List Nat := [
  0b0010111111, 0b0010111111,
  0b0010111111, 0b0010111111,
  0b0010011111, 0b0010101111,
  0b0010110111, 0b0010001111,
  0b0010010111, 0b0010010111,
  0b0010100111, 0b0010111011,
  0b0010111011, 0b0010111011,
  0b0010111011, 0b0010000111,
  0b0010000111, 0b0010000111,
  0b0010011011, 0b0010011011,
  0b0010011011, 0b0010011011,
  0b0010011011, 0b0010011011,
  0b0010011011, 0b0010101011,
  0b0010101011, 0b0010101011,
  0b0010101011, 0b0010101011,
  0b0010110011, 0b0010110011,
  0b0010110011, 0b0010110011,
  0b0010110011, 0b0010110011,
  0b0010110011, 0b0010110011,
  0b0010110011, 0b0010110011,
  0b0010110011, 0b0010110011,
  0b0010110011, 0b0010110011,
  0b0010110011, 0b0010110011,
  0b0010110011, 0b0010001011,
  0b0010001011, 0b0010001011,
  0b0010001011, 0b0010001011,
  0b0010001011, 0b0010001011,
  0b0010001011, 0b0010001011,
  0b0010001011, 0b0010001011,
  0b0010001011, 0b0010001011,
  0b0010001011, 0b0010001011,
  0b0010001011, 0b0010001011 ]

/-- The `filter_lookup_high` array of `write_mmcm`, transcribed bit for bit. -/
def mmcm_filter_lookup_high : List Nat := [
  0b0010111100, 0b0100111100,
  0b0101101100, 0b0111011100,
  0b1101011100, 0b1110101100,
  0b1110110100, 0b1111001100,
  0b1110010100, 0b1111010100,
  0b1111100100, 0b1101000100,
  0b1111100100, 0b1111100100,
  0b1111100100, 0b1111100100,
  0b1111010100, 0b1111010100,
  0b1100000100, 0b1100000100,
  0b1100000100, 0b0101110000,
  0b0101110000, 0b0101110000,
  0b0101110000, 0b0011010000,
  0b0011010000, 0b0011010000,
  0b0011010000, 0b0011010000,
  0b0011010000, 0b0011010000,
  0b0011010000, 0b0011010000,
  0b0011010000, 0b0011010000,
  0b0011010000, 0b0011010000,
  0b0011010000, 0b0011010000,
  0b0011010000, 0b0010100000,
  0b0010100000, 0b0010100000,
  0b0010100000, 0b0010100000,
  0b0111000100, 0b0111000100,
  0b0100110000, 0b0100110000,
  0b0100110000, 0b0100110000,
  0b0110000100, 0b0110000100,
  0b0101011000, 0b0101011000,
  0b0101011000, 0b0010010000,
  0b0010010000, 0b0010010000,
  0b0010010000, 0b0100101000,
  0b0011110000, 0b0011110000 ]

/-- The `filter_lookup_optimized` array of `write_mmcm`, transcribed bit for bit. -/
def mmcm_filter_lookup_optimized : List Nat := [
  0b0010111100, 0b0100111100,
  0b0101101100, 0b0111011100,
  0b1101011100, 0b1110101100,
  0b1110110100, 0b1111001100,
  0b1110010100, 0b1111010100,
  0b1111100100, 0b1101000100,
  0b1111100100, 0b1111100100,
  0b1111100100, 0b1111100100,
  0b1111010100, 0b1111010100,
  0b1100000100, 0b1100000100,
  0b1100000100, 0b0101110000,
  0b0101110000, 0b0101110000,
  0b0101110000, 0b0011010000,
  0b0011010000, 0b0011010000,
  0b0011010000, 0b0011010000,
  0b0011010000, 0b0011010000,
  0b0011010000, 0b0011010000,
  0b0011010000, 0b0011010000,
  0b0011010000, 0b0011010000,
  0b0011010000, 0b0011010000,
  0b0011010000, 0b0010100000,
  0b0010100000, 0b0010100000,
  0b0010100000, 0b0010100000,
  0b0111000100, 0b0111000100,
  0b0100110000, 0b0100110000,
  0b0100110000, 0b0100110000,
  0b0110000100, 0b0110000100,
  0b0101011000, 0b0101011000,
  0b0101011000, 0b0010010000,
  0b0010010000, 0b0010010000,
  0b0010010000, 0b0100101000,
  0b0011110000, 0b0011110000 ]

/-- Filter-table selection of `write_mmcm` by the `BANDWIDTH` parameter (any
unrecognised value selects the OPTIMIZED table). -/
def mmcm_filter_table (bandwidth : String) : List Nat :=
  if bandwidth = "LOW" then mmcm_filter_lookup_low
  else if bandwidth = "LOW_SS" then mmcm_filter_lookup_low_ss
  else if bandwidth = "HIGH" then mmcm_filter_lookup_high
  else mmcm_filter_lookup_optimized

/-- Indexing of a C array by a possibly negative index: a negative or
too-large index is an out-of-bounds read, undefined behaviour in the source,
modelled as `none`. -/
def listGetInt (l : List Nat) (i : Int) : Option Nat :=
  if i < 0 then none else l.get? i.toNat

/-- The `LKTABLE`/`FILTREG1_RESERVED` fragment of `write_mmcm` for an
MMCME2_ADV cell in tile `tile`: `clkfbout_mult` is the truncated
`CLKFBOUT_MULT_F` parameter (default 5.000); values above 63 or equal to 0
are fatal errors, and both vectors are looked up at index
`clkfbout_mult - 1`, the filter table being selected by `BANDWIDTH`
(default OPTIMIZED). -/
def write_mmcm_lktable_lines (tile : String) (multF : ℚ) (bandwidth : String) :
    Except String (List String) :=
  let pre := [tile, "MMCME2_ADV"]
  let m := ratTrunc multF
  if 63 < m then .error "MMCME2_ADV: CLKFBOUT_MULT_F must not be greater than 63"
  else if m = 0 then .error "MMCME2_ADV: CLKFBOUT_MULT_F must not be 0"
  else
    match listGetInt mmcm_lk_table (m - 1), listGetInt (mmcm_filter_table bandwidth) (m - 1) with
    | some lk, some fl =>
      .ok [write_int_vector_line pre "LKTABLE[39:0]" lk 40 false,
           write_int_vector_line pre "FILTREG1_RESERVED[11:0]" fl 12 false]
    | _, _ => .error "out-of-bounds table read (undefined behaviour in the source)"

/-! ## The emission context and its blank-line discipline -/

/-- State of the emission context: the characters written so far, the
`last_was_blank` flag, and the prefix stack `fasm_ctx`. -/
structure EmitState where
  out : List Char
  lastBlank : Bool
  ctx : List (List Char)

/-- The initial emission context (`last_was_blank = true`, empty output). -/
def initEmit : EmitState := { out := [], lastBlank := true, ctx := [] }

/-- One write operation of the emission context. `push`/`pop` manage the
prefix stack, `blank` is the separator, `writeBit`/`writeVec` the feature
writers, and `pipHit`/`pipMiss` the two direct-stream paths of `write_pip`
(a pseudo-PIP hit emitting one line per suffix and setting the flag only
when the suffix list is non-empty, and the natural line with its optional
`OCLKM` duplicate). -/
inductive EmitOp where
  | push (s : List Char)
  | pop
  | blank
  | writeBit (name : List Char) (value : Bool)
  | writeVec (name : List Char) (bits : List Bool) (invert : Bool)
  | pipHit (tile : List Char) (suffixes : List (List Char))
  | pipMiss (tile dst src : List Char) (dup : Bool)

/-- The prefix characters written by `write_prefix()`. -/
def preChars (ctx : List (List Char)) : List Char :=
  ctx.flatMap (fun x => x ++ ['.'])

/-- Append one feature line (`chunk` then `std::endl`) and clear the blank flag. -/
def emitLine (st : EmitState) (chunk : List Char) : EmitState :=
  { st with out := st.out ++ chunk ++ ['\n'], lastBlank := false }

/-- The effect of one operation on the emission context, following the
source: `blank()` writes a separator only when `last_was_blank` is false;
`write_bit` writes nothing when the condition is false; a pseudo-PIP hit
with an empty suffix list writes nothing and leaves the flag unchanged. -/
def emitStep (st : EmitState) : EmitOp → EmitState
  | .push s => { st with ctx := st.ctx ++ [s] }
  | .pop => { st with ctx := st.ctx.dropLast }
  | .blank =>
    if st.lastBlank then st else { st with out := st.out ++ ['\n'], lastBlank := true }
  | .writeBit name value =>
    if value then emitLine st (preChars st.ctx ++ name) else st
  | .writeVec name bits invert =>
    emitLine st (preChars st.ctx ++ name ++ (" = ").data ++ (natDecimal bits.length).data ++
      ("'b").data ++ bits.reverse.map (fun b => bitChar (xor b invert)))
  | .pipHit tile suffixes =>
    { st with
      out := st.out ++ suffixes.flatMap (fun c => tile ++ '.' :: c ++ ['\n'])
      lastBlank := if suffixes.isEmpty then st.lastBlank else false }
  | .pipMiss tile dst src dup =>
    let line1 := tile ++ '.' :: dst ++ '.' :: src ++ ['\n']
    let line2 := if dup then tile ++ '.' :: replFirst ("OCLK").data ("OCLKM").data dst ++
      '.' :: src ++ ['\n'] else []
    { st with out := st.out ++ line1 ++ line2, lastBlank := false }

/-- Run a trace of operations from a state. -/
def runEmit (st : EmitState) : List EmitOp → EmitState
  | [] => st
  | op :: rest => runEmit (emitStep st op) rest

/-- Well-formedness of one operation: pushed prefix pieces contain no
newline, written names are non-empty and newline-free, and PIP tile/wire
names are non-empty and newline-free (tile and wire names in the database
never contain newlines). -/
def wfOp : EmitOp → Bool
  | .push s => s.all (fun c => c != '\n')
  | .pop => true
  | .blank => true
  | .writeBit name _ => !name.isEmpty && name.all (fun c => c != '\n')
  | .writeVec name _ _ => !name.isEmpty && name.all (fun c => c != '\n')
  | .pipHit tile suffixes =>
    !tile.isEmpty && tile.all (fun c => c != '\n') &&
      suffixes.all (fun s => s.all (fun c => c != '\n'))
  | .pipMiss tile dst src _ =>
    !tile.isEmpty && tile.all (fun c => c != '\n') && dst.all (fun c => c != '\n') &&
      src.all (fun c => c != '\n')

/-- Trailing-newline-run tracking automaton: `some n` means the text so far
is admissible and ends in exactly `min n 2`-tracked `n` consecutive
newlines; `none` means a run of three newlines occurred. -/
def nlStep : Option Nat → Char → Option Nat
  | none, _ => none
  | some n, c => if c = '\n' then (if 2 ≤ n then none else some (n + 1)) else some 0

/-- Run the trailing-run automaton over a text. -/
def nlTrail (l : List Char) : Option Nat := l.foldl nlStep (some 0)

/-- The blank-line invariant of the emission context: the prefix stack is
newline-free, and the output's trailing newline run is short — at most two
newlines, and exactly the one line-ending newline whenever `last_was_blank`
is false. -/
def emitInv (st : EmitState) : Prop :=
  st.ctx.all (fun s => s.all (fun c => c != '\n')) = true ∧
  (if st.lastBlank then nlTrail st.out = some 0 ∨ nlTrail st.out = some 1 ∨
      nlTrail st.out = some 2
    else nlTrail st.out = some 1)

/-! ## Concrete cells used by the scenario claims -/

/-- The LUT2 cell of the spec's first end-to-end scenario: `INIT = 4'b1000`,
`X_ORIG_PORT_A3 = "I0"`, `X_ORIG_PORT_A6 = "I1"`. -/
def c1_cell : LutCell :=
  { origType := "LUT2"
    origPorts := [none, none, some "I0", none, none, some "I1"]
    initBits := [false, false, false, true] }

/-- A PLLE2_ADV cell whose `CLKFBOUT_MULT` is 0 (out of the claimed range). -/
def c4_pll_mult0 : PllCell :=
  { ratParams := fun n => if n = "CLKFBOUT_MULT" then some 0 else none
    strParams := fun _ => none
    boolParams := fun _ => false
    netExists := fun _ => false }

/-- A PLLE2_ADV cell whose `CLKFBOUT_MULT` is 100 (out of the claimed range). -/
def c4_pll_mult100 : PllCell :=
  { ratParams := fun n => if n = "CLKFBOUT_MULT" then some 100 else none
    strParams := fun _ => none
    boolParams := fun _ => false
    netExists := fun _ => false }

/-- The line list produced by a successful `write_pll` run. -/
def pllLines (tile : String) (c : PllCell) : List String :=
  ((write_pll tile c).toOption).getD []

/-- An `FDRE` whose `IS_CLK_INVERTED` parameter is 1. -/
def c5_ffA : FFCell :=
  { belName := "AFF", origType := "FDRE", initParam := 0, clkInvParam := true,
    srNet := none, ceNet := none, dmuxSuffixes := [] }

/-- An `FDRE_1` (negedge variant) with default parameters. -/
def c5_ffB : FFCell :=
  { belName := "AFF2", origType := "FDRE_1", initParam := 0, clkInvParam := false,
    srNet := none, ceNet := none, dmuxSuffixes := [] }

/-- The `FDRE` of the spec's second end-to-end scenario: `INIT = 1'b0`, CE
tied to the packer's VCC net, SR on the real net `rst`, on sub-bel AFF. -/
def c6_ff : FFCell :=
  { belName := "AFF", origType := "FDRE", initParam := 0, clkInvParam := false,
    srNet := some "rst", ceNet := some "$PACKER_VCC_NET", dmuxSuffixes := [] }

/-! ## Helper lemmas -/

set_option maxRecDepth 8000

/-- Decimal digit characters are never a newline. -/
theorem digitChar_ne_nl (n : Nat) : digitChar n ≠ '\n' := by
  unfold digitChar
  split <;> decide

theorem natDigitsAux_no_nl (fuel n : Nat) : '\n' ∉ natDigitsAux fuel n := by
  induction fuel generalizing n with
  | zero => simp [natDigitsAux]
  | succ fuel ih =>
    unfold natDigitsAux
    split
    · simp
      exact fun h => (digitChar_ne_nl n h.symm).elim
    · intro h
      rcases List.mem_append.mp h with h1 | h1
      · exact ih _ h1
      · simp at h1
        exact digitChar_ne_nl _ h1.symm

/-- The rendered decimal width contains no newline. -/
theorem natDecimal_no_nl (n : Nat) : '\n' ∉ (natDecimal n).data :=
  natDigitsAux_no_nl (n + 1) n

theorem natDigitsAux_ne_nil (fuel n : Nat) : natDigitsAux (fuel + 1) n ≠ [] := by
  unfold natDigitsAux
  split
  · simp
  · simp

/-- The rendered decimal width is non-empty. -/
theorem natDecimal_ne_nil (n : Nat) : (natDecimal n).data ≠ [] :=
  natDigitsAux_ne_nil n n

/-- Bit characters are never a newline. -/
theorem bitChar_ne_nl (b : Bool) : bitChar b ≠ '\n' := by
  cases b <;> decide

theorem joinPre_data (pre : List String) :
    (joinPre pre).data = pre.flatMap (fun x => x.data ++ ['.']) := by
  induction pre with
  | nil => rfl
  | cons x t ih => simp [joinPre, String.data_append, ih]

/-- The dotted prefix contains no newline when no stack element does. -/
theorem joinPre_no_nl (pre : List String) (h : ∀ p ∈ pre, '\n' ∉ p.data) :
    '\n' ∉ (joinPre pre).data := by
  rw [joinPre_data]
  intro hmem
  rcases List.mem_flatMap.mp hmem with ⟨p, hp, hin⟩
  rcases List.mem_append.mp hin with h1 | h1
  · exact h p hp h1
  · simp at h1

theorem bitsVal_append_singleton (l : List Bool) (b : Bool) :
    bitsVal (l ++ [b]) = bitsVal l + (if b then 2 ^ l.length else 0) := by
  induction l with
  | nil => cases b <;> simp [bitsVal]
  | cons c t ih =>
    cases b <;> simp [bitsVal, ih, pow_succ] <;> ring

/-- The bit list of `write_int_vector` encodes exactly `v mod 2^w`. -/
theorem bitsVal_intVectorBits (v w : Nat) : bitsVal (intVectorBits v w) = v % 2 ^ w := by
  induction w with
  | zero => simp [intVectorBits, bitsVal, Nat.mod_one]
  | succ w ih =>
    have hr : intVectorBits v (w + 1) = intVectorBits v w ++ [v.testBit w] := by
      simp [intVectorBits, List.range_succ]
    rw [hr, bitsVal_append_singleton, ih]
    have hlen : (intVectorBits v w).length = w := by simp [intVectorBits]
    rw [hlen, pow_succ, Nat.mod_mul, Nat.testBit_to_div_mod]
    rcases Nat.mod_two_eq_zero_or_one (v / 2 ^ w) with h | h <;> simp [h] <;> ring

/-! ## Claim C1 -/

/-- C1 counterexample: for the scenario's LUT2 (INIT=4'b1000, I0 on A3, I1 on
A6, no 5-LUT partner, bound to ALUT of CLBLL_L_X2Y10), the INIT line computed
by `get_lut_init` and printed by `write_vector` is NOT the
`64'b1111111100000000...` literal the claim states: that literal has 32 set
bits, while a 2-input AND table has 16. -/
theorem c1_counterexample :
    (get_lut_init (some c1_cell) none).map
      (fun v => write_vector_line ["CLBLL_L_X2Y10", "SLICEL_X0", "ALUT"] "INIT[63:0]" v false) ≠
    some "CLBLL_L_X2Y10.SLICEL_X0.ALUT.INIT[63:0] = 64'b1111111100000000111111110000000011111111000000001111111100000000" := by
  decide

/-- C1 (amended): for that cell, `get_lut_init` with no 5-LUT partner yields
the 64-bit table whose entry `j` is set exactly when physical inputs A3 and
A6 (bits 2 and 5 of `j`) are both asserted, so the emitted line is
`CLBLL_L_X2Y10.SLICEL_X0.ALUT.INIT[63:0] =
64'b1111000011110000111100001111000000000000000000000000000000000000`. -/
theorem c1_theorem :
    (get_lut_init (some c1_cell) none).map
      (fun v => write_vector_line ["CLBLL_L_X2Y10", "SLICEL_X0", "ALUT"] "INIT[63:0]" v false) =
    some "CLBLL_L_X2Y10.SLICEL_X0.ALUT.INIT[63:0] = 64'b1111000011110000111100001111000000000000000000000000000000000000" := by
  decide

/-! ## Claim C10 -/

/-- C10: `write_int_vector(name, v, w, invert)` emits exactly one line whose
binary literal has exactly `w` digits, the low `w` bits of `v` each XOR-ed
with `invert` printed most-significant bit first; set bits of `v` at
positions `>= w` are discarded, i.e. the literal encodes `v mod 2^w`. -/
theorem c10_theorem (pre : List String) (name : String) (v w : Nat) (invert : Bool)
    (hw : w ≤ 64) (hv : v < 2 ^ 64)
    (hn : '\n' ∉ name.data) (hp : ∀ p ∈ pre, '\n' ∉ p.data) :
    write_int_vector_line pre name v w invert =
      joinPre pre ++ name ++ " = " ++ natDecimal w ++ "'b" ++
        String.mk ((List.range w).reverse.map (fun i => bitChar (xor (v.testBit i) invert))) ∧
    ((List.range w).reverse.map (fun i => bitChar (xor (v.testBit i) invert))).length = w ∧
    bitsVal (intVectorBits v w) = v % 2 ^ w ∧
    '\n' ∉ (write_int_vector_line pre name v w invert).data := by
  have hrend : write_int_vector_line pre name v w invert =
      joinPre pre ++ name ++ " = " ++ natDecimal w ++ "'b" ++
        String.mk ((List.range w).reverse.map (fun i => bitChar (xor (v.testBit i) invert))) := by
    simp only [write_int_vector_line, write_vector_line, intVectorBits, List.map_reverse,
      List.map_map, List.length_map, List.length_range]
    rfl
  refine ⟨hrend, by simp, bitsVal_intVectorBits v w, ?_⟩
  rw [hrend]
  simp only [String.data_append, String.mk]
  intro hmem
  rcases List.mem_append.mp hmem with hmem | hdig
  rcases List.mem_append.mp hmem with hmem | hb
  rcases List.mem_append.mp hmem with hmem | hdec
  rcases List.mem_append.mp hmem with hmem | heq
  rcases List.mem_append.mp hmem with hjoin | hname
  · exact joinPre_no_nl pre hp hjoin
  · exact hn hname
  · revert heq
    decide
  · exact natDecimal_no_nl w hdec
  · revert hb
    decide
  · rcases List.mem_map.mp hdig with ⟨i, _, hi⟩
    exact bitChar_ne_nl _ hi

/-- C10 witness: the theorem instantiated at prefix `["T"]`, name `X[3:0]`,
value 11, width 4, no inversion. -/
theorem c10_witness :
    write_int_vector_line ["T"] "X[3:0]" 11 4 false =
      joinPre ["T"] ++ "X[3:0]" ++ " = " ++ natDecimal 4 ++ "'b" ++
        String.mk ((List.range 4).reverse.map (fun i => bitChar (xor ((11 : Nat).testBit i) false))) ∧
    ((List.range 4).reverse.map (fun i => bitChar (xor ((11 : Nat).testBit i) false))).length = 4 ∧
    bitsVal (intVectorBits 11 4) = 11 % 2 ^ 4 ∧
    '\n' ∉ (write_int_vector_line ["T"] "X[3:0]" 11 4 false).data :=
  c10_theorem ["T"] "X[3:0]" 11 4 false (by decide) (by decide) (by decide) (by decide)

/-! ## Claim C9 -/

/-- C9 counterexample: the CLK_BUFG pseudo-PIP entry for BUFGCTRL0 input I0
(tile type CLK_BUFG_TOP_R) asserts `ZINV_CE0`/`ZINV_S0` — the inverter bits
of the input *selected* by the mux — and does not assert `ZINV_CE1` or
`ZINV_S1` on the opposite input, contrary to the claim. -/
theorem c9_counterexample :
    ppLookup ("CLK_BUFG_TOP_R", "CLK_BUFG_BUFGCTRL0_O", "CLK_BUFG_BUFGCTRL0_I0") =
      some ["BUFGCTRL.BUFGCTRL_X0Y0.IN_USE",
            "BUFGCTRL.BUFGCTRL_X0Y0.IS_IGNORE1_INVERTED",
            "BUFGCTRL.BUFGCTRL_X0Y0.ZINV_CE0",
            "BUFGCTRL.BUFGCTRL_X0Y0.ZINV_S0"] ∧
    "BUFGCTRL.BUFGCTRL_X0Y0.ZINV_CE1" ∉
      ["BUFGCTRL.BUFGCTRL_X0Y0.IN_USE",
       "BUFGCTRL.BUFGCTRL_X0Y0.IS_IGNORE1_INVERTED",
       "BUFGCTRL.BUFGCTRL_X0Y0.ZINV_CE0",
       "BUFGCTRL.BUFGCTRL_X0Y0.ZINV_S0"] := by
  constructor
  · decide
  · decide

/-- C9 (amended): for every index `i < 16` and both TOP/BOT tile types, the
pseudo-PIP entry for the BUFGCTRL `_I0` input asserts, besides the `IN_USE`
activation, the `ZINV_CE0`/`ZINV_S0` inverter bits of the *selected* input 0
together with `IS_IGNORE1_INVERTED` on the opposite input 1 — and
symmetrically for `_I1` (`ZINV_CE1`/`ZINV_S1` plus `IS_IGNORE0_INVERTED`). -/
theorem c9_theorem : ∀ (i : Fin 16) (b : Bool),
    ppLookup ("CLK_BUFG_" ++ (if b then "TOP" else "BOT") ++ "_R",
      "CLK_BUFG_BUFGCTRL" ++ natDecimal i.val ++ "_O",
      "CLK_BUFG_BUFGCTRL" ++ natDecimal i.val ++ "_I0") =
      some ["BUFGCTRL.BUFGCTRL_X0Y" ++ natDecimal i.val ++ ".IN_USE",
            "BUFGCTRL.BUFGCTRL_X0Y" ++ natDecimal i.val ++ ".IS_IGNORE1_INVERTED",
            "BUFGCTRL.BUFGCTRL_X0Y" ++ natDecimal i.val ++ ".ZINV_CE0",
            "BUFGCTRL.BUFGCTRL_X0Y" ++ natDecimal i.val ++ ".ZINV_S0"] ∧
    ppLookup ("CLK_BUFG_" ++ (if b then "TOP" else "BOT") ++ "_R",
      "CLK_BUFG_BUFGCTRL" ++ natDecimal i.val ++ "_O",
      "CLK_BUFG_BUFGCTRL" ++ natDecimal i.val ++ "_I1") =
      some ["BUFGCTRL.BUFGCTRL_X0Y" ++ natDecimal i.val ++ ".IN_USE",
            "BUFGCTRL.BUFGCTRL_X0Y" ++ natDecimal i.val ++ ".IS_IGNORE0_INVERTED",
            "BUFGCTRL.BUFGCTRL_X0Y" ++ natDecimal i.val ++ ".ZINV_CE1",
            "BUFGCTRL.BUFGCTRL_X0Y" ++ natDecimal i.val ++ ".ZINV_S1"] := by
  decide

/-! ## Claim C2 -/

/-- C2 counterexample: in a SING IOI tile above its HCLK the suffixes of a
pseudo-PIP hit are emitted with `Y0` rewritten to `Y1`, so the emitted lines
are not `tile.L[i]` for the table's suffix list `L` as the claim states. The
key `(LIOI3_SING, LIOI_OLOGIC0_OQ, IOI_OLOGIC0_D1)` is in the table with
`Y0` suffixes, yet tile `LIOI3_SING_X0Y50` (top half) emits `OLOGIC_Y1`
lines. -/
theorem c2_counterexample :
    ppLookup ("LIOI3_SING", "LIOI_OLOGIC0_OQ", "IOI_OLOGIC0_D1") =
      some ["OLOGIC_Y0.OMUX.D1", "OLOGIC_Y0.OQUSED", "OLOGIC_Y0.OSERDES.DATA_RATE_TQ.BUF"] ∧
    write_pip "LIOI3_SING_X0Y50" "LIOI3_SING" "LIOI_OLOGIC0_OQ" "IOI_OLOGIC0_D1"
        "INTENT_DEFAULT" true true false =
      ["LIOI3_SING_X0Y50.OLOGIC_Y1.OMUX.D1",
       "LIOI3_SING_X0Y50.OLOGIC_Y1.OQUSED",
       "LIOI3_SING_X0Y50.OLOGIC_Y1.OSERDES.DATA_RATE_TQ.BUF"] ∧
    write_pip "LIOI3_SING_X0Y50" "LIOI3_SING" "LIOI_OLOGIC0_OQ" "IOI_OLOGIC0_D1"
        "INTENT_DEFAULT" true true false ≠
      ["LIOI3_SING_X0Y50.OLOGIC_Y0.OMUX.D1",
       "LIOI3_SING_X0Y50.OLOGIC_Y0.OQUSED",
       "LIOI3_SING_X0Y50.OLOGIC_Y0.OSERDES.DATA_RATE_TQ.BUF"] := by
  refine ⟨by decide, by decide, by decide⟩

/-- C2 (amended): a used PIP whose key is in the pseudo-PIP table with suffix
list `L`, not skipped by the PSEUDO_GND/PSEUDO_VCC and TILE_ROUTING checks,
emits exactly `|L|` lines in table order of the form `tile.L'[i]`, where
`L'[i]` is `L[i]` with the first `Y0` rewritten to `Y1` when the tile name
starts with `RIOI3_SING`/`LIOI3_SING`/`RIOI_SING` and the tile lies above
its HCLK, and `L'[i] = L[i]` otherwise; the natural `tile.dst.src` line is
not emitted. In particular the routed PIP `(LIOI3, IOI_OLOGIC0_D1 ->
LIOI_OLOGIC0_OQ)` in (non-SING) tile `LIOI3_X0Y100` emits exactly the three
claimed `OLOGIC_Y0` lines and no natural line. -/
theorem c2_theorem :
    (∀ (tileName tileType dst src dstIntent : String) (isTopSing oclkmBound : Bool)
      (L : List String),
      ppLookup (tileType, dst, src) = some L →
      dstIntent ≠ "PSEUDO_GND" → dstIntent ≠ "PSEUDO_VCC" →
      write_pip tileName tileType dst src dstIntent true isTopSing oclkmBound =
        L.map (fun c => tileName ++ "." ++
          (if singIoiName tileName && isTopSing then replFirstStr c "Y0" "Y1" else c))) ∧
    write_pip "LIOI3_X0Y100" "LIOI3" "LIOI_OLOGIC0_OQ" "IOI_OLOGIC0_D1"
        "INTENT_DEFAULT" true false false =
      ["LIOI3_X0Y100.OLOGIC_Y0.OMUX.D1",
       "LIOI3_X0Y100.OLOGIC_Y0.OQUSED",
       "LIOI3_X0Y100.OLOGIC_Y0.OSERDES.DATA_RATE_TQ.BUF"] ∧
    "LIOI3_X0Y100.LIOI_OLOGIC0_OQ.IOI_OLOGIC0_D1" ∉
      ["LIOI3_X0Y100.OLOGIC_Y0.OMUX.D1",
       "LIOI3_X0Y100.OLOGIC_Y0.OQUSED",
       "LIOI3_X0Y100.OLOGIC_Y0.OSERDES.DATA_RATE_TQ.BUF"] := by
  refine ⟨?_, by decide, by decide⟩
  intro tileName tileType dst src dstIntent isTopSing oclkmBound L hL h1 h2
  simp [write_pip, hL, h1, h2]

/-- C2 witness: the quantified part of the theorem applied to the concrete
LIOI3_X0Y100 PIP of the claim. -/
theorem c2_witness :
    write_pip "LIOI3_X0Y100" "LIOI3" "LIOI_OLOGIC0_OQ" "IOI_OLOGIC0_D1"
        "INTENT_DEFAULT" true false false =
      (["OLOGIC_Y0.OMUX.D1", "OLOGIC_Y0.OQUSED",
        "OLOGIC_Y0.OSERDES.DATA_RATE_TQ.BUF"]).map (fun c => "LIOI3_X0Y100" ++ "." ++
          (if singIoiName "LIOI3_X0Y100" && false then replFirstStr c "Y0" "Y1" else c)) :=
  c2_theorem.1 "LIOI3_X0Y100" "LIOI3" "LIOI_OLOGIC0_OQ" "IOI_OLOGIC0_D1" "INTENT_DEFAULT"
    false false ["OLOGIC_Y0.OMUX.D1", "OLOGIC_Y0.OQUSED", "OLOGIC_Y0.OSERDES.DATA_RATE_TQ.BUF"]
    (by decide) (by decide) (by decide)

/-! ## Claim C3 -/

/-- C3: the clock-output divider math of `write_pll_clkout` (PLLE2_ADV) and
`write_mmcm_clkout` (MMCME2_ADV): `divide <= 1` gives `no_count`; otherwise
`high = floor(divide/2)`, `low = floor(divide) - high`, `edge = (high != low)`,
`phase_eights = floor((phase/360)*divide*8)` with `phasemux`/`delaytime` its C
truncated remainder and quotient by 8, and `frac = floor(divide*8) -
floor(divide)*8` computed only for CLKOUT1/CLKFBOUT on the PLL and
CLKOUT0/CLKFBOUT on the MMCM; in particular `divide = 5.25` yields `high = 2`,
`low = 3`, `edge`, not `no_count`, `frac = 2`. -/
theorem c3_theorem :
    (∀ (name : String) (divide phase : ℚ), divide ≤ 1 →
      (pll_clkout_cfg name divide phase).noCount = true ∧
      (mmcm_clkout_cfg name divide phase).noCount = true) ∧
    (∀ (name : String) (divide phase : ℚ), 1 < divide →
      ((pll_clkout_cfg name divide phase).noCount = false ∧
       (pll_clkout_cfg name divide phase).high = ⌊divide / 2⌋ ∧
       (pll_clkout_cfg name divide phase).low = ⌊divide⌋ - ⌊divide / 2⌋ ∧
       ((pll_clkout_cfg name divide phase).edge = true ↔
         ⌊divide / 2⌋ ≠ ⌊divide⌋ - ⌊divide / 2⌋) ∧
       (pll_clkout_cfg name divide phase).phasemux = Int.tmod ⌊phase / 360 * divide * 8⌋ 8 ∧
       (pll_clkout_cfg name divide phase).delaytime = Int.tdiv ⌊phase / 360 * divide * 8⌋ 8 ∧
       (pll_clkout_cfg name divide phase).frac =
         (if name = "CLKOUT1" ∨ name = "CLKFBOUT" then ⌊divide * 8⌋ - ⌊divide⌋ * 8 else 0)) ∧
      ((mmcm_clkout_cfg name divide phase).noCount = false ∧
       (mmcm_clkout_cfg name divide phase).high = ⌊divide / 2⌋ ∧
       (mmcm_clkout_cfg name divide phase).low = ⌊divide⌋ - ⌊divide / 2⌋ ∧
       ((mmcm_clkout_cfg name divide phase).edge = true ↔
         ⌊divide / 2⌋ ≠ ⌊divide⌋ - ⌊divide / 2⌋) ∧
       (mmcm_clkout_cfg name divide phase).phasemux = Int.tmod ⌊phase / 360 * divide * 8⌋ 8 ∧
       (mmcm_clkout_cfg name divide phase).delaytime = Int.tdiv ⌊phase / 360 * divide * 8⌋ 8 ∧
       (mmcm_clkout_cfg name divide phase).frac =
         (if name = "CLKOUT0" ∨ name = "CLKFBOUT" then ⌊divide * 8⌋ - ⌊divide⌋ * 8 else 0))) ∧
    ((pll_clkout_cfg "CLKOUT1" 5.25 0).high = 2 ∧ (pll_clkout_cfg "CLKOUT1" 5.25 0).low = 3 ∧
     (pll_clkout_cfg "CLKOUT1" 5.25 0).edge = true ∧
     (pll_clkout_cfg "CLKOUT1" 5.25 0).noCount = false ∧
     (pll_clkout_cfg "CLKOUT1" 5.25 0).frac = 2) ∧
    ((mmcm_clkout_cfg "CLKOUT0" 5.25 0).high = 2 ∧ (mmcm_clkout_cfg "CLKOUT0" 5.25 0).low = 3 ∧
     (mmcm_clkout_cfg "CLKOUT0" 5.25 0).edge = true ∧
     (mmcm_clkout_cfg "CLKOUT0" 5.25 0).noCount = false ∧
     (mmcm_clkout_cfg "CLKOUT0" 5.25 0).frac = 2) := by
  refine ⟨?_, ?_, by norm_num [pll_clkout_cfg], by norm_num [mmcm_clkout_cfg]⟩
  · intro name divide phase h
    constructor <;> simp [pll_clkout_cfg, mmcm_clkout_cfg, h]
  · intro name divide phase h
    constructor <;>
      refine ⟨?_, ?_, ?_, ?_, ?_, ?_, ?_⟩ <;>
        simp [pll_clkout_cfg, mmcm_clkout_cfg, not_le.mpr h, bne_iff_ne]

/-- C3 witness: the `1 < divide` rules instantiated at `CLKOUT2`,
`divide = 6`, `phase = 90`. -/
theorem c3_witness :
    ((pll_clkout_cfg "CLKOUT2" 6 90).noCount = false ∧
     (pll_clkout_cfg "CLKOUT2" 6 90).high = ⌊(6 : ℚ) / 2⌋ ∧
     (pll_clkout_cfg "CLKOUT2" 6 90).low = ⌊(6 : ℚ)⌋ - ⌊(6 : ℚ) / 2⌋ ∧
     ((pll_clkout_cfg "CLKOUT2" 6 90).edge = true ↔
       ⌊(6 : ℚ) / 2⌋ ≠ ⌊(6 : ℚ)⌋ - ⌊(6 : ℚ) / 2⌋) ∧
     (pll_clkout_cfg "CLKOUT2" 6 90).phasemux = Int.tmod ⌊(90 : ℚ) / 360 * 6 * 8⌋ 8 ∧
     (pll_clkout_cfg "CLKOUT2" 6 90).delaytime = Int.tdiv ⌊(90 : ℚ) / 360 * 6 * 8⌋ 8 ∧
     (pll_clkout_cfg "CLKOUT2" 6 90).frac =
       (if "CLKOUT2" = "CLKOUT1" ∨ "CLKOUT2" = "CLKFBOUT" then
         ⌊(6 : ℚ) * 8⌋ - ⌊(6 : ℚ)⌋ * 8 else 0)) ∧
    ((mmcm_clkout_cfg "CLKOUT2" 6 90).noCount = false ∧
     (mmcm_clkout_cfg "CLKOUT2" 6 90).high = ⌊(6 : ℚ) / 2⌋ ∧
     (mmcm_clkout_cfg "CLKOUT2" 6 90).low = ⌊(6 : ℚ)⌋ - ⌊(6 : ℚ) / 2⌋ ∧
     ((mmcm_clkout_cfg "CLKOUT2" 6 90).edge = true ↔
       ⌊(6 : ℚ) / 2⌋ ≠ ⌊(6 : ℚ)⌋ - ⌊(6 : ℚ) / 2⌋) ∧
     (mmcm_clkout_cfg "CLKOUT2" 6 90).phasemux = Int.tmod ⌊(90 : ℚ) / 360 * 6 * 8⌋ 8 ∧
     (mmcm_clkout_cfg "CLKOUT2" 6 90).delaytime = Int.tdiv ⌊(90 : ℚ) / 360 * 6 * 8⌋ 8 ∧
     (mmcm_clkout_cfg "CLKOUT2" 6 90).frac =
       (if "CLKOUT2" = "CLKOUT0" ∨ "CLKOUT2" = "CLKFBOUT" then
         ⌊(6 : ℚ) * 8⌋ - ⌊(6 : ℚ)⌋ * 8 else 0)) :=
  c3_theorem.2.1 "CLKOUT2" 6 90 (by norm_num)

/-! ## Claim C4 -/

/-- C4 counterexample: for PLLE2_ADV cells the claim fails — `write_pll`
succeeds for the out-of-range `CLKFBOUT_MULT` values 0 and 100 (it performs
no range check at all), and it emits `LKTABLE`/`FILTREG1_RESERVED` as the
fixed constants `0xB5BE8FA401`/`0x8` rather than values looked up by
`CLKFBOUT_MULT - 1`; the same out-of-range multiplier 0 *is* fatal on the
MMCME2_ADV side. -/
theorem c4_counterexample :
    (write_pll "CMT_TOP_L_UPPER_T_X8Y0" c4_pll_mult0).isOk = true ∧
    (write_pll "CMT_TOP_L_UPPER_T_X8Y0" c4_pll_mult100).isOk = true ∧
    write_int_vector_line ["CMT_TOP_L_UPPER_T_X8Y0", "PLLE2_ADV"] "LKTABLE[39:0]"
        0xB5BE8FA401 40 false ∈ pllLines "CMT_TOP_L_UPPER_T_X8Y0" c4_pll_mult0 ∧
    write_int_vector_line ["CMT_TOP_L_UPPER_T_X8Y0", "PLLE2_ADV"] "FILTREG1_RESERVED[11:0]"
        0x8 12 false ∈ pllLines "CMT_TOP_L_UPPER_T_X8Y0" c4_pll_mult0 ∧
    (write_mmcm_lktable_lines "CMT_TOP_L_UPPER_T_X8Y0" 0 "OPTIMIZED").isOk = false := by
  refine ⟨by decide, by decide, by decide, by decide, by decide⟩

/-- C4 (amended): on the MMCME2_ADV side the claim holds — the emitted
`LKTABLE[39:0]` and `FILTREG1_RESERVED[11:0]` vectors are looked up from the
static tables at index `CLKFBOUT_MULT - 1` (so index range `[0, 62]`), the
filter table selected by `BANDWIDTH` (LOW / LOW_SS / HIGH, anything else
OPTIMIZED), and `CLKFBOUT_MULT > 63` or `= 0` is a fatal error. The PLLE2_ADV
encoder instead emits the fixed constants `LKTABLE = 0xB5BE8FA401` and
`FILTREG1_RESERVED = 0x8` on every successful run, with no dependence on
`CLKFBOUT_MULT` and no range check. -/
theorem c4_theorem :
    (∀ (tile : String) (multF : ℚ) (bw : String), 63 < ratTrunc multF →
      write_mmcm_lktable_lines tile multF bw =
        .error "MMCME2_ADV: CLKFBOUT_MULT_F must not be greater than 63") ∧
    (∀ (tile : String) (multF : ℚ) (bw : String), ratTrunc multF = 0 →
      write_mmcm_lktable_lines tile multF bw =
        .error "MMCME2_ADV: CLKFBOUT_MULT_F must not be 0") ∧
    (∀ (tile : String) (multF : ℚ) (bw : String),
      1 ≤ ratTrunc multF → ratTrunc multF ≤ 63 →
      write_mmcm_lktable_lines tile multF bw =
        .ok [write_int_vector_line [tile, "MMCME2_ADV"] "LKTABLE[39:0]"
               ((mmcm_lk_table.get? (ratTrunc multF - 1).toNat).getD 0) 40 false,
             write_int_vector_line [tile, "MMCME2_ADV"] "FILTREG1_RESERVED[11:0]"
               (((mmcm_filter_table bw).get? (ratTrunc multF - 1).toNat).getD 0) 12 false]) ∧
    (∀ (tile : String) (c : PllCell) (ls : List String), write_pll tile c = .ok ls →
      write_int_vector_line [tile, "PLLE2_ADV"] "LKTABLE[39:0]" 0xB5BE8FA401 40 false ∈ ls ∧
      write_int_vector_line [tile, "PLLE2_ADV"] "FILTREG1_RESERVED[11:0]" 0x8 12 false ∈ ls) := by
  refine ⟨?_, ?_, ?_, ?_⟩
  · intro tile multF bw h
    simp [write_mmcm_lktable_lines, h]
  · intro tile multF bw h
    have hng : ¬ (63 < ratTrunc multF) := by omega
    simp [write_mmcm_lktable_lines, h, hng]
  · intro tile multF bw h1 h2
    have hlen1 : mmcm_lk_table.length = 63 := by rfl
    have hlen2 : (mmcm_filter_table bw).length = 64 := by
      unfold mmcm_filter_table
      split <;> try rfl
      split <;> try rfl
      split <;> rfl
    have hidx : (ratTrunc multF - 1).toNat < 63 := by omega
    rcases hget1 : mmcm_lk_table.get? (ratTrunc multF - 1).toNat with _ | lk
    · rw [List.get?_eq_none] at hget1
      omega
    rcases hget2 : (mmcm_filter_table bw).get? (ratTrunc multF - 1).toNat with _ | fl
    · rw [List.get?_eq_none] at hget2
      omega
    have hng : ¬ (63 < ratTrunc multF) := by omega
    have hnz : ¬ (ratTrunc multF = 0) := by omega
    have hneg : ¬ (ratTrunc multF - 1 < 0) := by omega
    unfold write_mmcm_lktable_lines listGetInt
    rw [if_neg hng, if_neg hnz, if_neg hneg, hget1, if_neg hneg, hget2]
    rfl
  · intro tile c ls h
    unfold write_pll at h
    by_cases hc : (c.strParams "COMPENSATION").getD "INTERNAL" = "INTERNAL"
    · rw [if_pos hc] at h
      injection h with hls
      subst hls
      constructor <;> simp
    · rw [if_neg hc] at h
      exact absurd h (by simp)

/-- C4 witness: the MMCM lookup rule instantiated at `CLKFBOUT_MULT_F = 8`
with `BANDWIDTH = HIGH`. -/
theorem c4_witness :
    write_mmcm_lktable_lines "CMT" 8 "HIGH" =
      .ok [write_int_vector_line ["CMT", "MMCME2_ADV"] "LKTABLE[39:0]"
             ((mmcm_lk_table.get? (ratTrunc 8 - 1).toNat).getD 0) 40 false,
           write_int_vector_line ["CMT", "MMCME2_ADV"] "FILTREG1_RESERVED[11:0]"
             (((mmcm_filter_table "HIGH").get? (ratTrunc 8 - 1).toNat).getD 0) 12 false] :=
  c4_theorem.2.2.1 "CMT" 8 "HIGH" (by decide) (by decide)
theorem processFF_notFound (pre : List String) (st : FFState) (ff : FFCell)
    (hf : st.found = false) (d : Bool × Bool × Bool × Bool)
    (hdec : ffTypeDecode ff.origType = some d) :
    processFF pre st ff = .ok (ffOwnLines pre ff d.1 ++
      ff.dmuxSuffixes.map (fun s => joinPre pre ++ s), stOf ff d) := by
  simp [processFF, hdec, setCheck, hf, stOf]

theorem processFF_found_ok_eq (pre : List String) (st : FFState) (ff : FFCell)
    (hf : st.found = true) (d : Bool × Bool × Bool × Bool)
    (hdec : ffTypeDecode ff.origType = some d)
    (hsig : ffSig ff = some (stTuple st)) :
    processFF pre st ff = .ok (ffOwnLines pre ff d.1 ++
      ff.dmuxSuffixes.map (fun s => joinPre pre ++ s), st) := by
  rcases st with ⟨fnd, sneg, slat, ssync, sclk, ssr, sce⟩
  simp only at hf
  subst hf
  rcases d with ⟨zrst, neg, lat, syn⟩
  rw [ffSig, hdec] at hsig
  simp only [Option.map_some', Option.some.injEq, stTuple, Prod.mk.injEq] at hsig
  obtain ⟨e1, e2, e3, e4, e5, e6⟩ := hsig
  subst e1 e2 e3 e5 e6
  simp [processFF, hdec, setCheck, e4]

theorem processFF_found_err (pre : List String) (st : FFState) (ff : FFCell)
    (hf : st.found = true)
    (hsig : ffSig ff ≠ some (stTuple st)) :
    (processFF pre st ff).isOk = false := by
  rcases st with ⟨fnd, sneg, slat, ssync, sclk, ssr, sce⟩
  simp only at hf
  subst hf
  rcases hdec : ffTypeDecode ff.origType with _ | ⟨zrst, neg, lat, syn⟩
  · simp [processFF, hdec, Except.isOk, Except.toBool]
  · rw [ffSig, hdec] at hsig
    simp only [Option.map_some', stTuple] at hsig
    by_cases h1 : sneg = neg
    · by_cases h2 : slat = lat
      · by_cases h3 : ssync = syn
        · by_cases h4 : sclk = (sneg || ff.clkInvParam)
          · by_cases h5 : ssr = ffSrUsed ff
            · by_cases h6 : sce = ffCeUsed ff
              · subst h1 h2 h3 h4 h5 h6
                exact absurd (by cases sneg <;> simp) hsig
              · subst h1 h2 h3
                simp [processFF, hdec, setCheck, h4, h5, h6, Except.isOk, Except.toBool]
            · subst h1 h2 h3
              simp [processFF, hdec, setCheck, h4, h5, Except.isOk, Except.toBool]
          · subst h1 h2 h3
            simp [processFF, hdec, setCheck, h4, Except.isOk, Except.toBool]
        · subst h1 h2
          simp [processFF, hdec, setCheck, h3, Except.isOk, Except.toBool]
      · subst h1
        simp [processFF, hdec, setCheck, h2, Except.isOk, Except.toBool]
    · simp [processFF, hdec, setCheck, h1, Except.isOk, Except.toBool]

theorem ffSig_stOf (ff : FFCell) (d : Bool × Bool × Bool × Bool)
    (hdec : ffTypeDecode ff.origType = some d) :
    ffSig ff = some (stTuple (stOf ff d)) := by
  simp [ffSig, hdec, stOf, stTuple]

theorem processFF_ok_decode (pre : List String) (st : FFState) (ff : FFCell)
    (p : List String × FFState) (h : processFF pre st ff = .ok p) :
    ∃ d, ffTypeDecode ff.origType = some d := by
  rcases hdec : ffTypeDecode ff.origType with _ | d
  · rw [processFF, hdec] at h
    exact absurd h (by simp)
  · exact ⟨d, rfl⟩

theorem processFFs_found_eq (pre : List String) (st : FFState) (ffs : List FFCell)
    (hf : st.found = true)
    (hall : ∀ ff ∈ ffs, ffSig ff = some (stTuple st)) :
    processFFs pre st ffs = .ok (ffsLines pre ffs, st) := by
  induction ffs with
  | nil => rfl
  | cons f rest ih =>
    have hsig := hall f (by simp)
    have hdec : ∃ d, ffTypeDecode f.origType = some d := by
      rcases hd : ffTypeDecode f.origType with _ | d
      · rw [ffSig, hd] at hsig
        simp at hsig
      · exact ⟨d, rfl⟩
    rcases hdec with ⟨d, hdec⟩
    have ihe := ih (fun ff hm => hall ff (by simp [hm]))
    simp [processFFs, processFF_found_ok_eq pre st f hf d hdec hsig, ihe, ffsLines, hdec]

theorem processFFs_found_err (pre : List String) (st : FFState) (ffs : List FFCell)
    (hf : st.found = true)
    (hbad : ¬ ∀ ff ∈ ffs, ffSig ff = some (stTuple st)) :
    (processFFs pre st ffs).isOk = false := by
  induction ffs with
  | nil => simp at hbad
  | cons f rest ih =>
    by_cases hsig : ffSig f = some (stTuple st)
    · have hdec : ∃ d, ffTypeDecode f.origType = some d := by
        rcases hd : ffTypeDecode f.origType with _ | d
        · rw [ffSig, hd] at hsig
          simp at hsig
        · exact ⟨d, rfl⟩
      rcases hdec with ⟨d, hdec⟩
      have hbad2 : ¬ ∀ ff ∈ rest, ffSig ff = some (stTuple st) := by
        intro hr
        exact hbad (by
          intro ff hm
          rcases List.mem_cons.mp hm with h | h
          · subst h
            exact hsig
          · exact hr ff h)
      have hrest := ih hbad2
      rw [processFFs, processFF_found_ok_eq pre st f hf d hdec hsig]
      rcases hr : processFFs pre st rest with e | ⟨l2, st2⟩
      · simp [hr, Except.isOk, Except.toBool]
      · rw [hr] at hrest
        simp [Except.isOk, Except.toBool] at hrest
    · have herr := processFF_found_err pre st f hf hsig
      rw [processFFs]
      rcases hres : processFF pre st f with e | p
      · simp [hres, Except.isOk, Except.toBool]
      · rw [hres] at herr
        simp [Except.isOk, Except.toBool] at herr

theorem write_ffs_config_ok_eq (tname : String) (half : Nat) (f : FFCell)
    (rest : List FFCell) (d : Bool × Bool × Bool × Bool)
    (hdec : ffTypeDecode f.origType = some d)
    (hall : ∀ ff ∈ rest, ffSig ff = ffSig f) :
    write_ffs_config tname half (f :: rest) =
      .ok (ffsLines [tname, get_half_name half (strContains tname "CLBLM")] (f :: rest) ++
        write_ffs_tail [tname, get_half_name half (strContains tname "CLBLM")] (stOf f d)) := by
  have hst : (stOf f d).found = true := rfl
  have hsig := ffSig_stOf f d hdec
  have hall2 : ∀ ff ∈ rest, ffSig ff = some (stTuple (stOf f d)) := by
    intro ff hm
    rw [hall ff hm, hsig]
  have hrest := processFFs_found_eq [tname, get_half_name half (strContains tname "CLBLM")]
    (stOf f d) rest hst hall2
  have hhead := processFF_notFound [tname, get_half_name half (strContains tname "CLBLM")]
    st0FF f rfl d hdec
  simp [write_ffs_config, processFFs, hhead, hrest, ffsLines, hdec]

theorem write_ffs_isOk_cons (tname : String) (half : Nat) (f : FFCell) (rest : List FFCell)
    (d : Bool × Bool × Bool × Bool) (hdec : ffTypeDecode f.origType = some d) :
    (write_ffs_config tname half (f :: rest)).isOk = true ↔
      ∀ ff ∈ rest, ffSig ff = ffSig f := by
  constructor
  · intro hok
    by_contra hbad
    have hbad2 : ¬ ∀ ff ∈ rest, ffSig ff = some (stTuple (stOf f d)) := by
      intro hr
      exact hbad (fun ff hm => by rw [hr ff hm, ffSig_stOf f d hdec])
    have herr := processFFs_found_err [tname, get_half_name half (strContains tname "CLBLM")]
      (stOf f d) rest rfl hbad2
    have hhead := processFF_notFound [tname, get_half_name half (strContains tname "CLBLM")]
      st0FF f rfl d hdec
    rw [write_ffs_config] at hok
    rw [processFFs, hhead] at hok
    dsimp only at hok
    rcases hr : processFFs [tname, get_half_name half (strContains tname "CLBLM")]
        (stOf f d) rest with e | p
    · rw [hr] at hok
      simp [Except.isOk, Except.toBool] at hok
    · rw [hr] at herr
      simp [Except.isOk, Except.toBool] at herr
  · intro hall
    rw [write_ffs_config_ok_eq tname half f rest d hdec hall]
    rfl

theorem strAppend_left_inj (a : String) {b c : String} : a ++ b = a ++ c ↔ b = c := by
  constructor
  · intro h
    have hd := congrArg String.data h
    simp only [String.data_append] at hd
    exact String.ext (List.append_cancel_left hd)
  · intro h
    rw [h]

theorem ffsLines_shape (pre : List String) (ffs : List FFCell) (l : String)
    (hl : l ∈ ffsLines pre ffs) :
    ∃ ff ∈ ffs, l = joinPre pre ++ ff.belName ++ "." ++ "ZINI" ∨
      l = joinPre pre ++ ff.belName ++ "." ++ "ZRST" ∨
      ∃ s ∈ ff.dmuxSuffixes, l = joinPre pre ++ s := by
  induction ffs with
  | nil => simp [ffsLines] at hl
  | cons f rest ih =>
    rw [ffsLines] at hl
    rcases List.mem_append.mp hl with h | h
    · rcases List.mem_append.mp h with h | h
      · rw [ffOwnLines] at h
        rcases List.mem_append.mp h with h | h
        · refine ⟨f, by simp, Or.inl ?_⟩
          rcases List.mem_ite_nil_right.mp h with ⟨_, hm⟩
          simpa using hm
        · refine ⟨f, by simp, Or.inr (Or.inl ?_)⟩
          rcases List.mem_ite_nil_right.mp h with ⟨_, hm⟩
          simpa using hm
      · rcases List.mem_map.mp h with ⟨s, hs, hls⟩
        exact ⟨f, by simp, Or.inr (Or.inr ⟨s, hs, hls.symm⟩)⟩
    · rcases ih h with ⟨ff, hm, hc⟩
      exact ⟨ff, by simp [hm], hc⟩

theorem belline_ne_target (pre : List String) (bel z tgt : String)
    (hdot : '.' ∉ tgt.data) :
    joinPre pre ++ bel ++ "." ++ z ≠ joinPre pre ++ tgt := by
  intro h
  have h2 : joinPre pre ++ (bel ++ ("." ++ z)) = joinPre pre ++ tgt := by
    simpa [String.append_assoc] using h
  have h3 := (strAppend_left_inj (joinPre pre)).mp h2
  apply hdot
  rw [← h3]
  simp [String.data_append]

theorem sr_mem_tail (pre : List String) (st : FFState) :
    ((joinPre pre ++ "SRUSEDMUX") ∈ write_ffs_tail pre st ↔ st.srused = true) ∧
    ((joinPre pre ++ "CEUSEDMUX") ∈ write_ffs_tail pre st ↔ st.ceused = true) := by
  constructor <;>
    (simp only [write_ffs_tail, List.mem_append]
     split_ifs <;> simp_all [strAppend_left_inj])

/-- C5 (amended): for a half-tile whose bound FFs all have a supported
`X_ORIG_TYPE`, the `SET_CHECK` assertions pass (and the half is encoded
normally) exactly when the FFs agree on all SIX checked values — edge
polarity (negedge), latch-mode, sync-mode, clock-inversion, SR-used and
CE-used; agreement on the claim's five values without edge polarity is not
enough. -/
theorem c5_theorem :
    ∀ (tname : String) (half : Nat) (ffs : List FFCell),
      (∀ ff ∈ ffs, (ffTypeDecode ff.origType).isSome) →
      ((write_ffs_config tname half ffs).isOk = true ↔
        ∀ f1 ∈ ffs, ∀ f2 ∈ ffs, ffSig f1 = ffSig f2) := by
  intro tname half ffs hsome
  cases ffs with
  | nil => simp [write_ffs_config, processFFs, Except.isOk, Except.toBool]
  | cons f rest =>
    rcases Option.isSome_iff_exists.mp (hsome f (by simp)) with ⟨d, hdec⟩
    rw [write_ffs_isOk_cons tname half f rest d hdec]
    constructor
    · intro hall f1 h1 f2 h2
      rcases List.mem_cons.mp h1 with e1 | e1 <;> rcases List.mem_cons.mp h2 with e2 | e2
      · rw [e1, e2]
      · rw [e1, hall f2 e2]
      · rw [e2, hall f1 e1]
      · rw [hall f1 e1, hall f2 e2]
    · intro hp ff hm
      exact hp ff (by simp [hm]) f (by simp)

/-- C6: for every half-tile holding at least one bound FF that encodes
successfully, the `SRUSEDMUX` feature is emitted iff the FFs' SR net exists
and is not `$PACKER_GND_NET`, and `CEUSEDMUX` iff the CE net exists and is
not `$PACKER_VCC_NET` (stated via the first FF, with which all agree); the
side condition excludes D-mux routing suffixes that would collide with the
two feature names (real routing bel features never do). -/
theorem c6_theorem_general :
    ∀ (tname : String) (half : Nat) (f : FFCell) (rest : List FFCell) (lines : List String),
      write_ffs_config tname half (f :: rest) = .ok lines →
      (∀ ff ∈ f :: rest, ∀ s ∈ ff.dmuxSuffixes, s ≠ "SRUSEDMUX" ∧ s ≠ "CEUSEDMUX") →
      (((joinPre [tname, get_half_name half (strContains tname "CLBLM")] ++ "SRUSEDMUX") ∈ lines)
        ↔ ffSrUsed f = true) ∧
      (((joinPre [tname, get_half_name half (strContains tname "CLBLM")] ++ "CEUSEDMUX") ∈ lines)
        ↔ ffCeUsed f = true) := by
  intro tname half f rest lines hok hdm
  rcases hdec : ffTypeDecode f.origType with _ | d
  · rw [write_ffs_config, processFFs, processFF, hdec] at hok
    exact absurd hok (by simp)
  have hisok : (write_ffs_config tname half (f :: rest)).isOk = true := by
    rw [hok]
    rfl
  have hall := (write_ffs_isOk_cons tname half f rest d hdec).mp hisok
  rw [write_ffs_config_ok_eq tname half f rest d hdec hall] at hok
  injection hok with hl
  subst hl
  have hnotin : ∀ (tgt : String), '.' ∉ tgt.data →
      (∀ ff ∈ f :: rest, ∀ s ∈ ff.dmuxSuffixes, s ≠ tgt) →
      (joinPre [tname, get_half_name half (strContains tname "CLBLM")] ++ tgt) ∉
        ffsLines [tname, get_half_name half (strContains tname "CLBLM")] (f :: rest) := by
    intro tgt hdot hdm2 hmem
    rcases ffsLines_shape _ _ _ hmem with ⟨ff, hm, hc | hc | ⟨s, hs, hc⟩⟩
    · exact belline_ne_target _ _ _ _ hdot hc.symm
    · exact belline_ne_target _ _ _ _ hdot hc.symm
    · exact hdm2 ff hm s hs ((strAppend_left_inj _).mp hc.symm)
  constructor
  · rw [List.mem_append]
    constructor
    · intro hm
      rcases hm with hm | hm
      · exact absurd hm (hnotin "SRUSEDMUX" (by decide)
          (fun ff hf s hs => (hdm ff hf s hs).1))
      · exact (sr_mem_tail _ (stOf f d)).1.mp hm
    · intro hsr
      exact Or.inr ((sr_mem_tail _ (stOf f d)).1.mpr hsr)
  · rw [List.mem_append]
    constructor
    · intro hm
      rcases hm with hm | hm
      · exact absurd hm (hnotin "CEUSEDMUX" (by decide)
          (fun ff hf s hs => (hdm ff hf s hs).2))
      · exact (sr_mem_tail _ (stOf f d)).2.mp hm
    · intro hce
      exact Or.inr ((sr_mem_tail _ (stOf f d)).2.mpr hce)


/-- C5 counterexample: an `FDRE` with `IS_CLK_INVERTED = 1` and an `FDRE_1`
in the same half agree on all five values the claim lists (latch-mode,
sync-mode, clock-inversion, SR-used, CE-used — the tail of `ffSig`), yet the
`SET_CHECK` on the negedge flag fires and encoding fails. -/
theorem c5_counterexample :
    (ffSig c5_ffA).map (fun t => t.2) = (ffSig c5_ffB).map (fun t => t.2) ∧
    (write_ffs_config "CLBLL_L_X0Y0" 0 [c5_ffA, c5_ffB]).isOk = false := by
  constructor
  · decide
  · decide

/-- C5 witness: two agreeing `FDRE`s pass the checks, and the theorem's
equivalence holds for them. -/
theorem c5_witness :
    (∀ ff ∈ [c5_ffA, c5_ffA], (ffTypeDecode ff.origType).isSome) ∧
    ((write_ffs_config "CLBLL_L_X0Y0" 0 [c5_ffA, c5_ffA]).isOk = true ↔
      ∀ f1 ∈ [c5_ffA, c5_ffA], ∀ f2 ∈ [c5_ffA, c5_ffA], ffSig f1 = ffSig f2) :=
  ⟨by decide, c5_theorem "CLBLL_L_X0Y0" 0 [c5_ffA, c5_ffA] (by decide)⟩

/-- C6 scenario check: the `FDRE` example emits exactly `ZINI`, `ZRST`,
`FFSYNC`, `NOCLKINV` and `SRUSEDMUX` (and no `CEUSEDMUX`) under
`CLBLM_L_X0Y0.SLICEM_X0`. -/
theorem c6_scenario :
    write_ffs_config "CLBLM_L_X0Y0" 0 [c6_ff] =
      .ok ["CLBLM_L_X0Y0.SLICEM_X0.AFF.ZINI",
           "CLBLM_L_X0Y0.SLICEM_X0.AFF.ZRST",
           "CLBLM_L_X0Y0.SLICEM_X0.FFSYNC",
           "CLBLM_L_X0Y0.SLICEM_X0.NOCLKINV",
           "CLBLM_L_X0Y0.SLICEM_X0.SRUSEDMUX"] := by
  rfl

/-- C6: the `SRUSEDMUX`/`CEUSEDMUX` emission rule of `write_ffs_config`
together with the concrete `FDRE` scenario of the claim. -/
theorem c6_theorem :
    (∀ (tname : String) (half : Nat) (f : FFCell) (rest : List FFCell) (lines : List String),
      write_ffs_config tname half (f :: rest) = .ok lines →
      (∀ ff ∈ f :: rest, ∀ s ∈ ff.dmuxSuffixes, s ≠ "SRUSEDMUX" ∧ s ≠ "CEUSEDMUX") →
      (((joinPre [tname, get_half_name half (strContains tname "CLBLM")] ++ "SRUSEDMUX") ∈ lines)
        ↔ ffSrUsed f = true) ∧
      (((joinPre [tname, get_half_name half (strContains tname "CLBLM")] ++ "CEUSEDMUX") ∈ lines)
        ↔ ffCeUsed f = true)) ∧
    write_ffs_config "CLBLM_L_X0Y0" 0 [c6_ff] =
      .ok ["CLBLM_L_X0Y0.SLICEM_X0.AFF.ZINI",
           "CLBLM_L_X0Y0.SLICEM_X0.AFF.ZRST",
           "CLBLM_L_X0Y0.SLICEM_X0.FFSYNC",
           "CLBLM_L_X0Y0.SLICEM_X0.NOCLKINV",
           "CLBLM_L_X0Y0.SLICEM_X0.SRUSEDMUX"] :=
  ⟨c6_theorem_general, c6_scenario⟩

/-- C6 witness: the rule applied to the scenario FF — `SRUSEDMUX` is present
and `CEUSEDMUX` absent in its emitted lines. -/
theorem c6_witness :
    ((joinPre ["CLBLM_L_X0Y0", get_half_name 0 (strContains "CLBLM_L_X0Y0" "CLBLM")] ++
        "SRUSEDMUX") ∈
      ["CLBLM_L_X0Y0.SLICEM_X0.AFF.ZINI", "CLBLM_L_X0Y0.SLICEM_X0.AFF.ZRST",
       "CLBLM_L_X0Y0.SLICEM_X0.FFSYNC", "CLBLM_L_X0Y0.SLICEM_X0.NOCLKINV",
       "CLBLM_L_X0Y0.SLICEM_X0.SRUSEDMUX"] ↔ ffSrUsed c6_ff = true) ∧
    ((joinPre ["CLBLM_L_X0Y0", get_half_name 0 (strContains "CLBLM_L_X0Y0" "CLBLM")] ++
        "CEUSEDMUX") ∈
      ["CLBLM_L_X0Y0.SLICEM_X0.AFF.ZINI", "CLBLM_L_X0Y0.SLICEM_X0.AFF.ZRST",
       "CLBLM_L_X0Y0.SLICEM_X0.FFSYNC", "CLBLM_L_X0Y0.SLICEM_X0.NOCLKINV",
       "CLBLM_L_X0Y0.SLICEM_X0.SRUSEDMUX"] ↔ ffCeUsed c6_ff = true) :=
  c6_theorem.1 "CLBLM_L_X0Y0" 0 c6_ff [] _ c6_scenario (by decide)


/-! ## C7: VREF aggregation lemmas and theorem -/

theorem getCfg_updCfg (m : List (Nat × BankIoConfig)) (k k2 : Nat)
    (f : BankIoConfig → BankIoConfig) :
    getCfg (updCfg k f m) k2 =
      if k2 = k then some (f ((getCfg m k).getD {})) else getCfg m k2 := by
  induction m with
  | nil =>
    by_cases h : k2 = k
    · simp [updCfg, getCfg, h]
    · simp only [updCfg, getCfg]
      rw [if_neg (fun hh => h hh.symm), if_neg h]
  | cons e t ih =>
    rcases e with ⟨k1, c⟩
    by_cases h1 : k1 = k
    · subst h1
      by_cases h2 : k2 = k1 <;> simp [updCfg, getCfg, h2, ih, eq_comm]
    · by_cases h2 : k1 = k2 <;> by_cases h3 : k2 = k <;>
        simp_all [updCfg, getCfg, ih, eq_comm]

theorem vrefFlag_updCfg_pres (m : List (Nat × BankIoConfig)) (k k2 : Nat)
    (f : BankIoConfig → BankIoConfig) (hf : ∀ c, (f c).vref = c.vref) :
    vrefFlag (updCfg k f m) k2 = vrefFlag m k2 := by
  by_cases h : k2 = k <;> simp [vrefFlag, getCfg_updCfg, h, hf]

theorem vrefFlag_updCfg_set (m : List (Nat × BankIoConfig)) (k k2 : Nat) :
    vrefFlag (updCfg k (fun c => { c with vref := true }) m) k2 =
      (if k2 = k then true else vrefFlag m k2) := by
  by_cases h : k2 = k <;> simp [vrefFlag, getCfg_updCfg, h]

theorem padIsDiff_sstl (io : String)
    (hx : (io == "SSTL12" || io == "SSTL135" || io == "SSTL15") = true) :
    padIsDiff io = false := by
  simp only [Bool.or_eq_true, beq_iff_eq] at hx
  rcases hx with (h | h) | h <;> rw [h] <;> decide

theorem padIostd2_of_not_diff (io : String) (h : padIsDiff io = false) :
    padIostd2 io = io := by
  have hnd : strStartsWith io "DIFF_" = false := by
    rcases hy : strStartsWith io "DIFF_" with _ | _
    · rfl
    · rw [padIsDiff, hy] at h
      simp at h
  simp [padIostd2, hnd]

theorem sstlB_eq (p : Pad) :
    (p.isInput && !padIsDiff p.iostandard && padIsSstl p.iostandard) = sstlInputPad p := by
  rcases hx : (p.iostandard == "SSTL12" || p.iostandard == "SSTL135" ||
      p.iostandard == "SSTL15") with _ | _
  · by_cases hdiff : padIsDiff p.iostandard = true
    · simp [sstlInputPad, hx, hdiff]
    · have hdf : padIsDiff p.iostandard = false := by simp_all
      have h2 := padIostd2_of_not_diff p.iostandard hdf
      simp [sstlInputPad, padIsSstl, h2, hx, hdf]
  · have hd := padIsDiff_sstl p.iostandard hx
    have h2 := padIostd2_of_not_diff p.iostandard hd
    simp [sstlInputPad, padIsSstl, h2, hx, hd]

theorem vrefFlag_updCfg_set2 (m : List (Nat × BankIoConfig)) (k k2 : Nat) :
    vrefFlag (updCfg k (fun c => { c with vref := true }) m) k2 =
      ((k2 == k) || vrefFlag m k2) := by
  by_cases h : k2 = k <;> simp [vrefFlag, getCfg_updCfg, h]

theorem vrefFlag_upd_onlyDiff (m : List (Nat × BankIoConfig)) (k k2 : Nat) :
    vrefFlag (updCfg k (fun c => { c with onlyDiff := true }) m) k2 = vrefFlag m k2 :=
  vrefFlag_updCfg_pres m k k2 _ (fun _ => rfl)

theorem vrefFlag_upd_tmds (m : List (Nat × BankIoConfig)) (k k2 : Nat) :
    vrefFlag (updCfg k (fun c => { c with tmds33 := true }) m) k2 = vrefFlag m k2 :=
  vrefFlag_updCfg_pres m k k2 _ (fun _ => rfl)

theorem vrefFlag_upd_lvds (m : List (Nat × BankIoConfig)) (k k2 : Nat) :
    vrefFlag (updCfg k (fun c => { c with lvds25 := true }) m) k2 = vrefFlag m k2 :=
  vrefFlag_updCfg_pres m k k2 _ (fun _ => rfl)

theorem vrefFlag_upd_stepdown (m : List (Nat × BankIoConfig)) (k k2 : Nat) :
    vrefFlag (updCfg k (fun c => { c with stepdown := true }) m) k2 = vrefFlag m k2 :=
  vrefFlag_updCfg_pres m k k2 _ (fun _ => rfl)

theorem processPad_vref (m m2 : List (Nat × BankIoConfig)) (p : Pad)
    (h : processPad m p = .ok m2) (k : Nat) :
    vrefFlag m2 k = (vrefFlag m k || (p.hclk == k && sstlInputPad p)) := by
  rw [← sstlB_eq]
  rw [processPad] at h
  set m1 := if p.iostandard == "TMDS_33" || strStartsWith p.iostandard "LVDS" then
    updCfg p.hclk (fun c => { c with onlyDiff := true }) m else m with hm1
  set m2a := if p.iostandard == "TMDS_33" then
    updCfg p.hclk (fun c => { c with tmds33 := true }) m1 else m1 with hm2
  set m3 := if p.iostandard == "LVDS_25" then
    updCfg p.hclk (fun c => { c with lvds25 := true }) m2a else m2a with hm3
  have hv3 : vrefFlag m3 k = vrefFlag m k := by
    rw [hm3, hm2, hm1]
    split <;> split <;> split <;>
      simp [vrefFlag_upd_onlyDiff, vrefFlag_upd_tmds, vrefFlag_upd_lvds]
  by_cases he1 : (p.isOutput && (padIostd2 p.iostandard == "LVCMOS33" ||
      padIostd2 p.iostandard == "LVTTL") && p.isRiob18) = true
  · rw [if_pos he1] at h
    exact absurd h (by simp)
  · rw [if_neg he1] at h
    by_cases hin : (p.isInput && !padIsDiff p.iostandard) = true
    · rw [if_pos hin] at h
      by_cases he2 : ((padIostd2 p.iostandard == "LVCMOS33" ||
          padIostd2 p.iostandard == "LVTTL" || padIostd2 p.iostandard == "LVCMOS25") &&
          p.isRiob18) = true
      · rw [if_pos he2] at h
        exact absurd h (by simp)
      · rw [if_neg he2] at h
        by_cases hsstl : padIsSstl p.iostandard = true
        · rw [if_pos hsstl] at h
          dsimp only at h
          by_cases hstep : (!p.isRiob18 && (padIsLowVolt p.iostandard ||
              padIsSstl p.iostandard)) = true
          · rw [if_pos hstep] at h
            by_cases h12 : (padIostd2 p.iostandard == "SSTL12") = true
            · rw [if_pos h12] at h
              exact absurd h (by simp)
            · rw [if_neg h12] at h
              injection h with h
              subst h
              rw [vrefFlag_upd_stepdown, vrefFlag_updCfg_set2, hv3]
              rcases (Bool.and_eq_true _ _).mp hin with ⟨hi, hd⟩
              by_cases hk : k = p.hclk
              · simp [hi, hd, hsstl, Bool.or_comm, hk]
              · have hb1 : (k == p.hclk) = false := beq_eq_false_iff_ne.mpr hk
                have hb2 : (p.hclk == k) = false :=
                  beq_eq_false_iff_ne.mpr (fun hx => hk hx.symm)
                simp [hb1, hb2]
          · rw [if_neg hstep] at h
            injection h with h
            subst h
            rw [vrefFlag_updCfg_set2, hv3]
            rcases (Bool.and_eq_true _ _).mp hin with ⟨hi, hd⟩
            by_cases hk : k = p.hclk
            · simp [hi, hd, hsstl, Bool.or_comm, hk]
            · have hb1 : (k == p.hclk) = false := beq_eq_false_iff_ne.mpr hk
              have hb2 : (p.hclk == k) = false :=
                beq_eq_false_iff_ne.mpr (fun hx => hk hx.symm)
              simp [hb1, hb2]
        · rw [if_neg hsstl] at h
          dsimp only at h
          by_cases hstep : (!p.isRiob18 && (padIsLowVolt p.iostandard ||
              padIsSstl p.iostandard)) = true
          · rw [if_pos hstep] at h
            by_cases h12 : (padIostd2 p.iostandard == "SSTL12") = true
            · rw [if_pos h12] at h
              exact absurd h (by simp)
            · rw [if_neg h12] at h
              injection h with h
              subst h
              rw [vrefFlag_upd_stepdown, hv3]
              have hs2 : padIsSstl p.iostandard = false :=
                Bool.eq_false_iff.mpr (fun hx => hsstl hx)
              simp [hs2]
          · rw [if_neg hstep] at h
            injection h with h
            subst h
            rw [hv3]
            have hs2 : padIsSstl p.iostandard = false :=
              Bool.eq_false_iff.mpr (fun hx => hsstl hx)
            simp [hs2]
    · rw [if_neg hin] at h
      dsimp only at h
      by_cases hstep : (!p.isRiob18 && (padIsLowVolt p.iostandard ||
          padIsSstl p.iostandard)) = true
      · rw [if_pos hstep] at h
        by_cases h12 : (padIostd2 p.iostandard == "SSTL12") = true
        · rw [if_pos h12] at h
          exact absurd h (by simp)
        · rw [if_neg h12] at h
          injection h with h
          subst h
          rw [vrefFlag_upd_stepdown, hv3]
          have hin2 : (p.isInput && !padIsDiff p.iostandard) = false :=
            Bool.eq_false_iff.mpr (fun hx => hin hx)
          simp [← Bool.and_assoc, hin2]
      · rw [if_neg hstep] at h
        injection h with h
        subst h
        rw [hv3]
        have hin2 : (p.isInput && !padIsDiff p.iostandard) = false :=
          Bool.eq_false_iff.mpr (fun hx => hin hx)
        simp [← Bool.and_assoc, hin2]


theorem processPads_vref (pads : List Pad) :
    ∀ (m m2 : List (Nat × BankIoConfig)), processPads m pads = .ok m2 → ∀ k,
      vrefFlag m2 k = (vrefFlag m k ||
        pads.any (fun p => p.hclk == k && sstlInputPad p)) := by
  induction pads with
  | nil =>
    intro m m2 h k
    injection h with h
    subst h
    simp
  | cons p rest ih =>
    intro m m2 h k
    rw [processPads] at h
    rcases hp : processPad m p with e | m1
    · rw [hp] at h
      exact absurd h (by simp)
    · rw [hp] at h
      rw [ih m1 m2 h k, processPad_vref m m1 p hp k]
      simp [Bool.or_assoc]

theorem processPad_closure (m m2 : List (Nat × BankIoConfig)) (p : Pad)
    (h : processPad m p = .ok m2) (P : List (Nat × BankIoConfig) → Prop) (hP : P m)
    (hupd : ∀ m' k f, P m' → P (updCfg k f m')) : P m2 := by
  rw [processPad] at h
  set m1 := if p.iostandard == "TMDS_33" || strStartsWith p.iostandard "LVDS" then
    updCfg p.hclk (fun c => { c with onlyDiff := true }) m else m with hm1
  set m2a := if p.iostandard == "TMDS_33" then
    updCfg p.hclk (fun c => { c with tmds33 := true }) m1 else m1 with hm2
  set m3 := if p.iostandard == "LVDS_25" then
    updCfg p.hclk (fun c => { c with lvds25 := true }) m2a else m2a with hm3
  have hP1 : P m1 := by
    rw [hm1]
    split
    · exact hupd _ _ _ hP
    · exact hP
  have hP2 : P m2a := by
    rw [hm2]
    split
    · exact hupd _ _ _ hP1
    · exact hP1
  have hP3 : P m3 := by
    rw [hm3]
    split
    · exact hupd _ _ _ hP2
    · exact hP2
  by_cases he1 : (p.isOutput && (padIostd2 p.iostandard == "LVCMOS33" ||
      padIostd2 p.iostandard == "LVTTL") && p.isRiob18) = true
  · rw [if_pos he1] at h
    exact absurd h (by simp)
  · rw [if_neg he1] at h
    by_cases hin : (p.isInput && !padIsDiff p.iostandard) = true
    · rw [if_pos hin] at h
      by_cases he2 : ((padIostd2 p.iostandard == "LVCMOS33" ||
          padIostd2 p.iostandard == "LVTTL" || padIostd2 p.iostandard == "LVCMOS25") &&
          p.isRiob18) = true
      · rw [if_pos he2] at h
        exact absurd h (by simp)
      · rw [if_neg he2] at h
        by_cases hsstl : padIsSstl p.iostandard = true
        · rw [if_pos hsstl] at h
          dsimp only at h
          by_cases hstep : (!p.isRiob18 && (padIsLowVolt p.iostandard ||
              padIsSstl p.iostandard)) = true
          · rw [if_pos hstep] at h
            by_cases h12 : (padIostd2 p.iostandard == "SSTL12") = true
            · rw [if_pos h12] at h
              exact absurd h (by simp)
            · rw [if_neg h12] at h
              injection h with h
              subst h
              exact hupd _ _ _ (hupd _ _ _ hP3)
          · rw [if_neg hstep] at h
            injection h with h
            subst h
            exact hupd _ _ _ hP3
        · rw [if_neg hsstl] at h
          dsimp only at h
          by_cases hstep : (!p.isRiob18 && (padIsLowVolt p.iostandard ||
              padIsSstl p.iostandard)) = true
          · rw [if_pos hstep] at h
            by_cases h12 : (padIostd2 p.iostandard == "SSTL12") = true
            · rw [if_pos h12] at h
              exact absurd h (by simp)
            · rw [if_neg h12] at h
              injection h with h
              subst h
              exact hupd _ _ _ hP3
          · rw [if_neg hstep] at h
            injection h with h
            subst h
            exact hP3
    · rw [if_neg hin] at h
      dsimp only at h
      by_cases hstep : (!p.isRiob18 && (padIsLowVolt p.iostandard ||
          padIsSstl p.iostandard)) = true
      · rw [if_pos hstep] at h
        by_cases h12 : (padIostd2 p.iostandard == "SSTL12") = true
        · rw [if_pos h12] at h
          exact absurd h (by simp)
        · rw [if_neg h12] at h
          injection h with h
          subst h
          exact hupd _ _ _ hP3
      · rw [if_neg hstep] at h
        injection h with h
        subst h
        exact hP3

theorem cfgKeys_updCfg (m : List (Nat × BankIoConfig)) (k : Nat)
    (f : BankIoConfig → BankIoConfig) :
    cfgKeys (updCfg k f m) = if k ∈ cfgKeys m then cfgKeys m else cfgKeys m ++ [k] := by
  induction m with
  | nil => simp [updCfg, cfgKeys]
  | cons e t ih =>
    rcases e with ⟨k1, c⟩
    have hu : updCfg k f ((k1, c) :: t) =
        if k1 = k then (k1, f c) :: t else (k1, c) :: updCfg k f t := rfl
    have hc : ∀ (e : Nat × BankIoConfig) (l : List (Nat × BankIoConfig)),
        cfgKeys (e :: l) = e.1 :: cfgKeys l := fun _ _ => rfl
    by_cases h1 : k1 = k
    · subst h1
      rw [hu, if_pos rfl, hc, hc, if_pos (List.mem_cons_self _ _)]
    · rw [hu, if_neg h1, hc, hc, ih]
      have h2 : (k ∈ k1 :: cfgKeys t) ↔ (k ∈ cfgKeys t) := by
        rw [List.mem_cons]
        exact or_iff_right (fun hx => h1 hx.symm)
      by_cases hm : k ∈ cfgKeys t
      · rw [if_pos hm, if_pos (h2.mpr hm)]
      · rw [if_neg hm, if_neg (fun hx => hm (h2.mp hx)), List.cons_append]

theorem count_single_zero {a b : String} (h : ¬ b = a) : List.count a [b] = 0 := by
  simp [List.count_cons, h]

theorem count_cond_zero {a s : String} (b : Bool) (h : ¬ s = a) :
    List.count a (if b = true then [s] else []) = 0 := by
  cases b <;> simp [List.count_cons, h]

theorem nodup_updCfg (m : List (Nat × BankIoConfig)) (k : Nat)
    (f : BankIoConfig → BankIoConfig) (h : (cfgKeys m).Nodup) :
    (cfgKeys (updCfg k f m)).Nodup := by
  rw [cfgKeys_updCfg]
  by_cases hm : k ∈ cfgKeys m
  · rw [if_pos hm]
    exact h
  · rw [if_neg hm, List.nodup_append]
    refine ⟨h, List.nodup_singleton k, ?_⟩
    intro a ha hb
    rw [List.mem_singleton] at hb
    subst hb
    exact hm ha

theorem processPads_nodup (pads : List Pad) :
    ∀ (m m2 : List (Nat × BankIoConfig)), processPads m pads = .ok m2 →
      (cfgKeys m).Nodup → (cfgKeys m2).Nodup := by
  induction pads with
  | nil =>
    intro m m2 h hn
    injection h with h
    subst h
    exact hn
  | cons p rest ih =>
    intro m m2 h hn
    rw [processPads] at h
    rcases hp : processPad m p with e | m1
    · rw [hp] at h
      exact absurd h (by simp)
    · rw [hp] at h
      exact ih m1 m2 h
        (processPad_closure m m1 p hp (fun mm => (cfgKeys mm).Nodup) hn
          (fun m' k f hh => nodup_updCfg m' k f hh))

theorem getCfg_eq_none (m : List (Nat × BankIoConfig)) (k : Nat)
    (h : k ∉ cfgKeys m) : getCfg m k = none := by
  induction m with
  | nil => rfl
  | cons e t ih =>
    rcases e with ⟨k1, c⟩
    rw [show cfgKeys ((k1, c) :: t) = k1 :: cfgKeys t from rfl, List.mem_cons] at h
    push_neg at h
    show (if k1 = k then some c else getCfg t k) = none
    rw [if_neg (fun hx => h.1 hx.symm)]
    exact ih h.2

theorem str_ne_of_last (a b u v : String) (hu : u.data ≠ []) (hv : v.data ≠ [])
    (hlast : u.data.getLast? ≠ v.data.getLast?) : a ++ u ≠ b ++ v := by
  intro h
  have hd := congrArg String.data h
  simp only [String.data_append] at hd
  have hg := congrArg List.getLast? hd
  rw [List.getLast?_append_of_ne_nil _ hu, List.getLast?_append_of_ne_nil _ hv] at hg
  exact hlast hg

theorem strAppend_right_cancel {a b u : String} (h : a ++ u = b ++ u) : a = b := by
  have hd := congrArg String.data h
  simp only [String.data_append] at hd
  exact String.ext (List.append_cancel_right hd)

theorem count_bank (tn : Nat → String) (hinj : Function.Injective tn)
    (k h : Nat) (c : BankIoConfig) :
    (bankFlushLines tn k c).count (tn h ++ "." ++ "VREF.V_675_MV") =
      if k = h ∧ c.vref = true then 1 else 0 := by
  have hne1 : ¬ (tn k ++ "." ++ "STEPDOWN" = tn h ++ "." ++ "VREF.V_675_MV") :=
    str_ne_of_last _ _ _ _ (by decide) (by decide) (by decide)
  have hne3 : ¬ (tn k ++ "." ++ "ONLY_DIFF_IN_USE" = tn h ++ "." ++ "VREF.V_675_MV") :=
    str_ne_of_last _ _ _ _ (by decide) (by decide) (by decide)
  have hne4 : ¬ (tn k ++ "." ++ "TMDS_33_IN_USE" = tn h ++ "." ++ "VREF.V_675_MV") :=
    str_ne_of_last _ _ _ _ (by decide) (by decide) (by decide)
  have hne5 : ¬ (tn k ++ "." ++ "LVDS_25_IN_USE" = tn h ++ "." ++ "VREF.V_675_MV") :=
    str_ne_of_last _ _ _ _ (by decide) (by decide) (by decide)
  have h2 : (tn k ++ "." ++ "VREF.V_675_MV" = tn h ++ "." ++ "VREF.V_675_MV") ↔ k = h := by
    constructor
    · intro hx
      exact hinj (strAppend_right_cancel (strAppend_right_cancel hx))
    · intro hx
      rw [hx]
  by_cases hkh : k = h
  · subst hkh
    rcases hcv : c.vref with _ | _ <;>
      simp [bankFlushLines, List.count_append, hcv, List.count_cons,
        count_cond_zero c.stepdown hne1, count_cond_zero c.onlyDiff hne3,
        count_cond_zero c.tmds33 hne4, count_cond_zero c.lvds25 hne5]
  · have h2n : ¬ (tn k ++ "." ++ "VREF.V_675_MV" = tn h ++ "." ++ "VREF.V_675_MV") :=
      fun hx => hkh (h2.mp hx)
    simp [bankFlushLines, List.count_append,
      count_cond_zero c.stepdown hne1, count_cond_zero c.vref h2n,
      count_cond_zero c.onlyDiff hne3, count_cond_zero c.tmds33 hne4,
      count_cond_zero c.lvds25 hne5, hkh]

theorem count_flush (tn : Nat → String) (hinj : Function.Injective tn) (h : Nat) :
    ∀ (m : List (Nat × BankIoConfig)), (cfgKeys m).Nodup →
      (flushIoConfig tn m).count (tn h ++ "." ++ "VREF.V_675_MV") =
        (if vrefFlag m h then 1 else 0) := by
  intro m
  induction m with
  | nil => simp [flushIoConfig, vrefFlag, getCfg]
  | cons e t ih =>
    rcases e with ⟨k, c⟩
    intro hn
    rw [show cfgKeys ((k, c) :: t) = k :: cfgKeys t from rfl, List.nodup_cons] at hn
    have hcnt : (flushIoConfig tn ((k, c) :: t)).count (tn h ++ "." ++ "VREF.V_675_MV") =
        (bankFlushLines tn k c).count (tn h ++ "." ++ "VREF.V_675_MV") +
        (flushIoConfig tn t).count (tn h ++ "." ++ "VREF.V_675_MV") := by
      simp [flushIoConfig, List.count_append]
    rw [hcnt, ih hn.2, count_bank tn hinj k h c]
    by_cases hkh : k = h
    · subst hkh
      have hvt : vrefFlag t k = false := by
        simp [vrefFlag, getCfg_eq_none t k hn.1]
      have hvc : vrefFlag ((k, c) :: t) k = c.vref := by
        simp [vrefFlag, getCfg]
      rw [hvt, hvc]
      rcases hcv : c.vref with _ | _ <;> simp [hcv]
    · have hvc : vrefFlag ((k, c) :: t) h = vrefFlag t h := by
        simp [vrefFlag, getCfg, hkh]
      rw [hvc, if_neg (fun hx => hkh hx.1)]
      simp

/-- C7: for every pad list accepted by the PAD pass and every HCLK index h,
the flush emits the line tn h ++ ".VREF.V_675_MV" exactly once when some pad
of bank h is an SSTL input, and never otherwise. -/
theorem c7_theorem (pads : List Pad) (m : List (Nat × BankIoConfig))
    (tn : Nat → String) (h : Nat) (hinj : Function.Injective tn)
    (hok : processPads [] pads = .ok m) :
    (flushIoConfig tn m).count (tn h ++ "." ++ "VREF.V_675_MV") =
      (if pads.any (fun p => p.hclk == h && sstlInputPad p) then 1 else 0) := by
  have hnod : (cfgKeys m).Nodup := processPads_nodup pads [] m hok (by simp [cfgKeys])
  rw [count_flush tn hinj h m hnod, processPads_vref pads [] m hok h]
  simp [vrefFlag, getCfg]

theorem c7_witness :
    Function.Injective c7_tn ∧
    processPads [] [⟨"SSTL15", false, true, false, 3⟩] =
      .ok [(3, { vref := true, stepdown := true })] ∧
    (flushIoConfig c7_tn [(3, { vref := true, stepdown := true })]).count
        (c7_tn 3 ++ "." ++ "VREF.V_675_MV") = 1 := by
  have hinj : Function.Injective c7_tn := by
    intro a b hx
    have hlen := congrArg (fun s : String => s.data.length) hx
    simpa [c7_tn] using hlen
  have hok : processPads [] [(⟨"SSTL15", false, true, false, 3⟩ : Pad)] =
      .ok [(3, { vref := true, stepdown := true })] := by rfl
  refine ⟨hinj, hok, ?_⟩
  have happ := c7_theorem [⟨"SSTL15", false, true, false, 3⟩]
    [(3, { vref := true, stepdown := true })] c7_tn 3 hinj hok
  rw [happ]
  decide


/-! ## C8: blank-line discipline lemmas and theorem -/

theorem append_ne_nil_r {α : Type} (a b : List α) (h : b ≠ []) : a ++ b ≠ [] := by
  intro hx
  exact h (List.append_eq_nil.mp hx).2

theorem append_ne_nil_l {α : Type} (a b : List α) (h : a ≠ []) : a ++ b ≠ [] := by
  intro hx
  exact h (List.append_eq_nil.mp hx).1

theorem foldl_nlStep_none (l : List Char) : l.foldl nlStep none = none := by
  induction l with
  | nil => rfl
  | cons c t ih => simpa [nlStep] using ih

theorem foldl_nonl_zero (s : List Char) (h : s.all (fun c => c != '\n') = true) :
    s.foldl nlStep (some 0) = some 0 := by
  induction s with
  | nil => rfl
  | cons c t ih =>
    rw [List.all_cons, Bool.and_eq_true] at h
    have hc : ¬ c = '\n' := by simpa using h.1
    simp only [List.foldl_cons, nlStep, if_neg hc]
    exact ih h.2

theorem foldl_line (chunk : List Char) (hne : chunk ≠ [])
    (h : chunk.all (fun c => c != '\n') = true) (k : Nat) :
    (chunk ++ ['\n']).foldl nlStep (some k) = some 1 := by
  rcases chunk with _ | ⟨c, t⟩
  · exact absurd rfl hne
  · rw [List.all_cons, Bool.and_eq_true] at h
    have hc : ¬ c = '\n' := by simpa using h.1
    rw [List.cons_append, List.foldl_cons,
      show nlStep (some k) c = some 0 from by simp [nlStep, hc],
      List.foldl_append, foldl_nonl_zero t h.2]
    rfl

theorem nlTrail_append (a b : List Char) :
    nlTrail (a ++ b) = b.foldl nlStep (nlTrail a) := by
  simp [nlTrail, List.foldl_append]

theorem nlTrail_emitLine (st : EmitState) (chunk : List Char) (j : Nat)
    (hj : nlTrail st.out = some j) (hne : chunk ≠ [])
    (h : chunk.all (fun c => c != '\n') = true) :
    nlTrail (st.out ++ chunk ++ ['\n']) = some 1 := by
  rw [List.append_assoc, nlTrail_append, hj, foldl_line chunk hne h j]

theorem foldl_pip_lines (tile : List Char) (hne : tile ≠ [])
    (ht : tile.all (fun c => c != '\n') = true) :
    ∀ (sfx : List (List Char)),
      sfx.all (fun s => s.all (fun c => c != '\n')) = true → ∀ (k : Nat),
      (sfx.flatMap (fun c => tile ++ '.' :: c ++ ['\n'])).foldl nlStep (some k) =
        if sfx.isEmpty then some k else some 1 := by
  intro sfx
  induction sfx with
  | nil =>
    intro _ k
    rfl
  | cons c rest ih =>
    intro hs k
    rw [List.all_cons, Bool.and_eq_true] at hs
    rw [List.flatMap_cons, List.foldl_append]
    have hline : (tile ++ '.' :: c ++ ['\n']).foldl nlStep (some k) = some 1 := by
      rw [show tile ++ '.' :: c ++ ['\n'] = (tile ++ '.' :: c) ++ ['\n'] from by
        simp [List.append_assoc, List.cons_append]]
      apply foldl_line _ (append_ne_nil_l _ _ hne)
      rw [List.all_append, Bool.and_eq_true]
      refine ⟨ht, ?_⟩
      rw [List.all_cons, Bool.and_eq_true]
      exact ⟨by decide, hs.1⟩
    rw [hline, ih hs.2 1]
    rcases rest with _ | _ <;> simp

theorem mem_replFirst {pat rep l : List Char} {x : Char}
    (hx : x ∈ replFirst pat rep l) : x ∈ rep ∨ x ∈ l := by
  induction l with
  | nil => simp [replFirst] at hx
  | cons c t ih =>
    simp only [replFirst] at hx
    split at hx
    · rcases List.mem_append.mp hx with h | h
      · exact .inl h
      · exact .inr (List.mem_of_mem_drop h)
    · rcases List.mem_cons.mp hx with h | h
      · exact .inr (by simp [h])
      · rcases ih h with h2 | h2
        · exact .inl h2
        · exact .inr (List.mem_cons_of_mem _ h2)

theorem replFirst_all_nonl {pat rep l : List Char}
    (hr : rep.all (fun c => c != '\n') = true)
    (hl : l.all (fun c => c != '\n') = true) :
    (replFirst pat rep l).all (fun c => c != '\n') = true := by
  rw [List.all_eq_true] at hr hl ⊢
  intro x hx
  rcases mem_replFirst hx with h | h
  · exact hr x h
  · exact hl x h

theorem preChars_nonl (ctx : List (List Char))
    (h : ctx.all (fun s => s.all (fun c => c != '\n')) = true) :
    (preChars ctx).all (fun c => c != '\n') = true := by
  rw [List.all_eq_true] at h ⊢
  intro x hx
  rcases List.mem_flatMap.mp hx with ⟨s, hs, hin⟩
  rcases List.mem_append.mp hin with h1 | h1
  · have h2 := h s hs
    rw [List.all_eq_true] at h2
    exact h2 x h1
  · rw [List.mem_singleton] at h1
    subst h1
    decide

theorem emitStep_inv (st : EmitState) (op : EmitOp) (hw : wfOp op = true)
    (h : emitInv st) : emitInv (emitStep st op) := by
  obtain ⟨hctx, htr⟩ := h
  have hex : ∃ j, nlTrail st.out = some j := by
    by_cases hb : st.lastBlank = true
    · rw [if_pos hb] at htr
      rcases htr with h1 | h1 | h1
      exacts [⟨0, h1⟩, ⟨1, h1⟩, ⟨2, h1⟩]
    · rw [if_neg hb] at htr
      exact ⟨1, htr⟩
  cases op with
  | push s =>
    refine ⟨?_, htr⟩
    show ((st.ctx ++ [s]).all fun s2 => s2.all fun c => c != '\n') = true
    rw [List.all_append, Bool.and_eq_true]
    refine ⟨hctx, ?_⟩
    rw [List.all_cons]
    simp only [List.all_nil, Bool.and_true]
    exact hw
  | pop =>
    refine ⟨?_, htr⟩
    show ((st.ctx.dropLast).all fun s2 => s2.all fun c => c != '\n') = true
    rw [List.all_eq_true] at hctx ⊢
    intro x hx
    exact hctx x ((List.dropLast_sublist _).subset hx)
  | blank =>
    show emitInv (if st.lastBlank then st else _)
    by_cases hb : st.lastBlank = true
    · rw [if_pos hb]
      exact ⟨hctx, htr⟩
    · rw [if_neg hb]
      rw [if_neg hb] at htr
      refine ⟨hctx, ?_⟩
      rw [if_pos rfl]
      refine Or.inr (Or.inr ?_)
      rw [nlTrail_append, htr]
      decide
  | writeBit name value =>
    simp only [wfOp, Bool.and_eq_true, Bool.not_eq_true] at hw
    show emitInv (if value then emitLine st (preChars st.ctx ++ name) else st)
    rcases value with _ | _
    · rw [if_neg (by simp)]
      exact ⟨hctx, htr⟩
    · rw [if_pos rfl]
      obtain ⟨j, hj⟩ := hex
      refine ⟨hctx, ?_⟩
      rw [if_neg (by simp [emitLine])]
      show nlTrail (st.out ++ (preChars st.ctx ++ name) ++ ['\n']) = some 1
      have hne : name ≠ [] := by
        intro hx
        subst hx
        simp at hw
      apply nlTrail_emitLine st _ j hj (append_ne_nil_r _ _ hne)
      rw [List.all_append, Bool.and_eq_true]
      exact ⟨preChars_nonl st.ctx hctx, hw.2⟩
  | writeVec name bits invert =>
    simp only [wfOp, Bool.and_eq_true, Bool.not_eq_true] at hw
    obtain ⟨j, hj⟩ := hex
    refine ⟨hctx, ?_⟩
    rw [if_neg (by simp [emitStep, emitLine])]
    show nlTrail (st.out ++ (preChars st.ctx ++ name ++ (" = ").data ++
      (natDecimal bits.length).data ++ ("'b").data ++
      bits.reverse.map (fun b => bitChar (xor b invert))) ++ ['\n']) = some 1
    have hne : name ≠ [] := by
      intro hx
      subst hx
      simp at hw
    apply nlTrail_emitLine st _ j hj
    · exact append_ne_nil_l _ _ (append_ne_nil_l _ _ (append_ne_nil_l _ _
        (append_ne_nil_l _ _ (append_ne_nil_r _ _ hne))))
    · simp only [List.all_append, Bool.and_eq_true]
      refine ⟨⟨⟨⟨⟨preChars_nonl st.ctx hctx, hw.2⟩, by decide⟩, ?_⟩, by decide⟩, ?_⟩
      · rw [List.all_eq_true]
        intro x hx
        have hnn := natDecimal_no_nl bits.length
        rw [bne_iff_ne]
        intro he
        subst he
        exact hnn hx
      · rw [List.all_eq_true]
        intro x hx
        rcases List.mem_map.mp hx with ⟨b, _, hb⟩
        rw [bne_iff_ne]
        intro he
        subst he
        exact bitChar_ne_nl _ hb
  | pipHit tile suffixes =>
    simp only [wfOp, Bool.and_eq_true, Bool.not_eq_true] at hw
    have htile : tile ≠ [] := by
      intro hx
      subst hx
      simp at hw
    refine ⟨hctx, ?_⟩
    rcases suffixes with _ | ⟨c, rest⟩
    · show (if st.lastBlank then nlTrail (st.out ++ []) = some 0 ∨
          nlTrail (st.out ++ []) = some 1 ∨ nlTrail (st.out ++ []) = some 2
        else nlTrail (st.out ++ []) = some 1)
      rw [List.append_nil]
      exact htr
    · obtain ⟨j, hj⟩ := hex
      show (if (false : Bool) then _ ∨ _ ∨ _ else nlTrail (st.out ++
        (c :: rest).flatMap (fun c2 => tile ++ '.' :: c2 ++ ['\n'])) = some 1)
      rw [if_neg (by simp)]
      rw [nlTrail_append, hj,
        foldl_pip_lines tile htile hw.1.2 (c :: rest) hw.2 j]
      rfl
  | pipMiss tile dst src dup =>
    simp only [wfOp, Bool.and_eq_true, Bool.not_eq_true] at hw
    have htile : tile ≠ [] := by
      intro hx
      subst hx
      simp at hw
    obtain ⟨j, hj⟩ := hex
    refine ⟨hctx, ?_⟩
    rw [if_neg (by simp [emitStep])]
    show nlTrail (st.out ++ (tile ++ '.' :: dst ++ '.' :: src ++ ['\n']) ++
      (if dup then tile ++ '.' :: replFirst ("OCLK").data ("OCLKM").data dst ++
        '.' :: src ++ ['\n'] else [])) = some 1
    have hchunk : ∀ (k : Nat) (d : List Char), d.all (fun ch => ch != '\n') = true →
        (tile ++ '.' :: d ++ '.' :: src ++ ['\n']).foldl nlStep (some k) = some 1 := by
      intro k d hd
      rw [show tile ++ '.' :: d ++ '.' :: src ++ ['\n'] =
          (tile ++ '.' :: d ++ '.' :: src) ++ ['\n'] from by
        simp [List.append_assoc, List.cons_append]]
      apply foldl_line
      · exact append_ne_nil_l _ _ (append_ne_nil_l _ _ htile)
      · simp only [List.all_append, List.all_cons, Bool.and_eq_true]
        exact ⟨⟨hw.1.1.2, by decide, hd⟩, by decide, hw.2⟩
    have h1 : nlTrail (st.out ++ (tile ++ '.' :: dst ++ '.' :: src ++ ['\n'])) = some 1 := by
      rw [nlTrail_append, hj]
      exact hchunk j dst hw.1.2
    rw [nlTrail_append, h1]
    rcases dup with _ | _
    · rw [if_neg (by simp)]
      rfl
    · rw [if_pos rfl]
      exact hchunk 1 (replFirst ("OCLK").data ("OCLKM").data dst)
        (replFirst_all_nonl (by decide) hw.1.2)

theorem runEmit_inv (ops : List EmitOp) : ∀ (st : EmitState), ops.all wfOp = true →
    emitInv st → emitInv (runEmit st ops) := by
  induction ops with
  | nil =>
    intro st _ h
    exact h
  | cons op rest ih =>
    intro st hw h
    rw [List.all_cons, Bool.and_eq_true] at hw
    exact ih (emitStep st op) hw.2 (emitStep_inv st op hw.1 h)

theorem foldl_three_nl (o : Option Nat) : ['\n', '\n', '\n'].foldl nlStep o = none := by
  rcases o with _ | n
  · rfl
  · show nlStep (nlStep (nlStep (some n) '\n') '\n') '\n' = none
    by_cases h1 : 2 ≤ n
    · simp [nlStep, h1]
    · have h0 : n = 0 ∨ n = 1 := by omega
      rcases h0 with h | h <;> subst h <;> decide

theorem nlTrail_none_of_three (l : List Char)
    (h : ['\n', '\n', '\n'] <:+: l) : nlTrail l = none := by
  rcases h with ⟨s, t, hst⟩
  subst hst
  rw [nlTrail_append, nlTrail_append, foldl_three_nl, foldl_nlStep_none]

/-- C8 (amended): over any well-formed trace of write operations, the emitted
stream never contains three consecutive newline characters — equivalently, no
two consecutive blank lines; `blank()`'s `last_was_blank` discipline caps every
trailing newline run at two. -/
theorem c8_theorem (ops : List EmitOp) (hw : ops.all wfOp = true) :
    ¬ (['\n', '\n', '\n'] <:+: (runEmit initEmit ops).out) := by
  intro hin
  have hinv := runEmit_inv ops initEmit hw ⟨rfl, by decide⟩
  have hn := nlTrail_none_of_three _ hin
  obtain ⟨h1, h2⟩ := hinv
  by_cases hb : (runEmit initEmit ops).lastBlank = true
  · rw [if_pos hb] at h2
    rcases h2 with h | h | h <;> rw [hn] at h <;> exact Option.noConfusion h
  · rw [if_neg hb] at h2
    rw [hn] at h2
    exact Option.noConfusion h2

/-- C8 counterexample to the claim as stated: one feature line followed by one
`blank()` separator is a well-formed trace whose output `"A\n\n"` contains two
consecutive newline characters. -/
theorem c8_counterexample :
    [EmitOp.writeBit ['A'] true, EmitOp.blank].all wfOp = true ∧
    (runEmit initEmit [EmitOp.writeBit ['A'] true, EmitOp.blank]).out =
      ['A', '\n', '\n'] ∧
    ['\n', '\n'] <:+: ['A', '\n', '\n'] :=
  ⟨by decide, by decide, ⟨['A'], [], by decide⟩⟩

theorem c8_witness :
    ([EmitOp.writeBit ['A'] true, EmitOp.blank].all wfOp = true) ∧
    ¬ (['\n', '\n', '\n'] <:+:
      (runEmit initEmit [EmitOp.writeBit ['A'] true, EmitOp.blank]).out) :=
  ⟨by decide, c8_theorem [EmitOp.writeBit ['A'] true, EmitOp.blank] (by decide)⟩
